import Mathlib

/-!
# A shallow embedding of the zoxel voxel engine

This file embeds the algorithmic core of the zoxel voxel editor —
`src/undo.py` (class `Undo`, class `UndoItem`) and `src/voxel.py`
(class `VoxelData`) — in Lean 4, and proves or refutes the frozen claims
about it.

Modelling conventions:

* Python ints are `Int` (coordinates, deltas, packed colours); list/loop
  indices that are provably non-negative are `Nat` where noted.
* Mutating methods become state transformers `State → State`; methods that
  can raise a Python exception return `Except String State`, the error
  string naming the Python exception class.
* Python `%` on a positive modulus agrees with `Int.emod` (Lean's `%`),
  and Python `//` on non-negative operands agrees with `Int.div` (`/`).
* The dense 3-D nested list `_data` is modelled as a total function
  `Int → Int → Int → Int`.  The source only ever reads and writes
  in-bounds indices of `_data` (every access is guarded by
  `is_valid_bounds` or by the loop ranges), so out-of-bounds points of the
  function are don't-care values fixed to `EMPTY`, which also matches the
  zero-initialised fresh lists that the bulk operations allocate.
-/

namespace Zoxel

/-- Python index resolution: a negative index counts from the end. -/
def pyIndex (len : ℕ) (i : Int) : Int :=
  if i < 0 then i + len else i

/-- Python list indexing `l[i]` with an `int` index: a negative index counts
from the end, an out-of-range index raises `IndexError`. -/
def pyGet {α : Type} (l : List α) (i : Int) : Except String α :=
  if 0 ≤ pyIndex l.length i then
    match l[(pyIndex l.length i).toNat]? with
    | some a => .ok a
    | none => .error "IndexError"
  else .error "IndexError"

/-- Python slice `l[:k]` with an `int` bound: a negative bound counts from
the end, out-of-range bounds clamp. -/
def pySliceTo {α : Type} (l : List α) (k : Int) : List α :=
  if k < 0 then l.take (l.length + k).toNat else l.take k.toNat

/-- `voxel.py`: voxel states are packed-colour Python ints; `EMPTY = 0`. -/
def EMPTY : Int := 0

/-- `voxel.py`: `FULL = 1`. -/
def FULL : Int := 1

/-- `undo.py`, class `UndoItem`: an operation kind together with the old and
new data tuples.  Every tuple component is a Python int, so the tuples are
modelled as `List Int` (`SET_VOXEL` carries 4-tuples `(x, y, z, state)`,
`TRANSLATE` carries 3-tuples of deltas). -/
structure UndoItem where
  operation : Int
  olddata : List Int
  newdata : List Int
deriving DecidableEq, Repr

/-- The dynamic type of `Undo._buffer`.  The intended shape is a list of
per-frame logs (`frames`).  The stray assignment in `Undo.add`
(`self._buffer = self._buffer[self._frame][:self._ptr[self._frame]+1]`)
replaces the whole buffer object by the sliced *inner* log, i.e. by a bare
list of `UndoItem`s (`items`); Python's dynamic typing permits this, so the
embedding represents the buffer as a sum of the two shapes. -/
inductive Buffer where
  | frames (fs : List (List UndoItem))
  | items (xs : List UndoItem)
deriving DecidableEq, Repr

/-- `undo.py`, class `Undo`: the undo engine state.  `_frame` is only ever
assigned from a non-negative frame index, hence `Nat`. -/
structure Undo where
  enabled : Bool
  buffer : Buffer
  ptr : List Int
  frame : Nat
deriving DecidableEq, Repr

namespace Undo

/-- `undo.py`: `Undo.SET_VOXEL = 1`. -/
def SET_VOXEL : Int := 1

/-- `undo.py`: `Undo.TRANSLATE = 2`. -/
def TRANSLATE : Int := 2

/-- `Undo.clear`: `self._buffer = [[]]; self._ptr = [-1]; self._frame = 0`. -/
def clear (u : Undo) : Undo :=
  { u with buffer := .frames [[]], ptr := [-1], frame := 0 }

/-- `Undo.__init__`: enables the buffer and clears it. -/
def init : Undo :=
  { enabled := true, buffer := .frames [[]], ptr := [-1], frame := 0 }

/-- `Undo.add`.  When the pointer is strictly before the end of the current
frame's log, the source executes
`self._buffer = self._buffer[self._frame][:self._ptr[self._frame]+1]`,
replacing the whole per-frame buffer with the sliced inner log; the next
statement `self._buffer[self._frame].append(item)` then raises:
`IndexError` when `self._frame` is out of range of the sliced log, else
`AttributeError` (an `UndoItem` has no `append`).  Only when the pointer is
already at the end does the method do what its comment says: append `item`
and point at it. -/
def add (u : Undo) (item : UndoItem) : Except String Undo :=
  if u.enabled = false then .ok u
  else match u.buffer with
  | .frames fs =>
    match pyGet u.ptr (u.frame : Int), pyGet fs (u.frame : Int) with
    | .error e, _ => .error e
    | .ok _, .error e => .error e
    | .ok p, .ok log =>
      if p < (log.length : Int) - 1 then
        if u.frame < (pySliceTo log (p + 1)).length then .error "AttributeError"
        else .error "IndexError"
      else
        .ok { u with buffer := .frames (fs.set u.frame (log ++ [item])),
                     ptr := u.ptr.set u.frame (((log ++ [item]).length : Int) - 1) }
  | .items xs =>
    -- buffer already corrupted by a previous `add`:
    -- `len(self._buffer[self._frame])` raises TypeError on an `UndoItem`,
    -- or IndexError when the frame index is out of range
    match pyGet u.ptr (u.frame : Int) with
    | .error e => .error e
    | .ok _ => if u.frame < xs.length then .error "TypeError" else .error "IndexError"

/-- `Undo.undo`.  `_valid_buffer` only checks that the current frame's log is
non-empty; the body then reads `self._buffer[self._frame][self._ptr[self._frame]]`
with a pointer that may be `-1`, which Python resolves as the *last* element
of the log.  The pointer is then decremented and floored at `-1`. -/
def undo (u : Undo) : Except String (Option UndoItem × Undo) :=
  match u.buffer with
  | .frames fs =>
    match pyGet fs (u.frame : Int) with
    | .error e => .error e
    | .ok log =>
      if log.length = 0 then .ok (none, u)
      else match pyGet u.ptr (u.frame : Int) with
        | .error e => .error e
        | .ok p =>
          match pyGet log p with
          | .error e => .error e
          | .ok item =>
            let p' := p - 1
            let p'' := if p' < -1 then -1 else p'
            .ok (some item, { u with ptr := u.ptr.set u.frame p'' })
  | .items xs =>
    if u.frame < xs.length then .error "TypeError" else .error "IndexError"

/-- `Undo.redo`: increment the pointer; cap it at the last index (returning
nothing), otherwise return the entry now under the pointer. -/
def redo (u : Undo) : Except String (Option UndoItem × Undo) :=
  match u.buffer with
  | .frames fs =>
    match pyGet fs (u.frame : Int) with
    | .error e => .error e
    | .ok log =>
      if log.length = 0 then .ok (none, u)
      else match pyGet u.ptr (u.frame : Int) with
        | .error e => .error e
        | .ok p =>
          let p1 := p + 1
          if p1 > (log.length : Int) - 1 then
            .ok (none, { u with ptr := u.ptr.set u.frame ((log.length : Int) - 1) })
          else
            match pyGet log p1 with
            | .error e => .error e
            | .ok item => .ok (some item, { u with ptr := u.ptr.set u.frame p1 })
  | .items xs =>
    if u.frame < xs.length then .error "TypeError" else .error "IndexError"

end Undo

/-- `voxel.py` module constant `_WORLD_WIDTH = 16`. -/
def WORLD_WIDTH : Int := 16

/-- `voxel.py` module constant `_WORLD_HEIGHT = 16`. -/
def WORLD_HEIGHT : Int := 16

/-- `voxel.py` module constant `_WORLD_DEPTH = 16`. -/
def WORLD_DEPTH : Int := 16

/-- `voxel.py`, class `VoxelData`.  The dense list `_data` is a total
function (see the module docstring).  In Python `_data` and
`_frames[_current_frame]` alias the same list object, so an in-place
voxel write through `_data` is visible through `_frames`; the embedding
stores `frames` as an independent list and re-synchronises the current
entry wherever a mutation goes through `_data` (`set`, `translate`), and
wherever the source itself assigns (`select_frame`, `resize`,
`rotate_about_axis`).  (`set_data` rebinds `_data` to a fresh object
without updating `_frames`, exactly as the source does.)  The
`notify_changed` callback carried by `changed`'s property setter is pure
notification and is not modelled. -/
structure VoxelData where
  width : Int
  height : Int
  depth : Int
  undoBuf : Undo
  data : Int → Int → Int → Int
  cache : List (Int × Int × Int)
  changed : Bool
  frame_count : Nat
  current_frame : Nat
  frames : List (Int → Int → Int → Int)
  occlusion : Bool

namespace VoxelData

/-- `X_AXIS = 1`. -/
def X_AXIS : Int := 1

/-- `Y_AXIS = 2`. -/
def Y_AXIS : Int := 2

/-- `Z_AXIS = 3`. -/
def Z_AXIS : Int := 3

/-- `blank_data`: a freshly allocated `width × height × depth` array of
zeros; as a function it is constantly `EMPTY` (the dimension bookkeeping
lives in the `width`/`height`/`depth` fields). -/
def blank_data : Int → Int → Int → Int := fun _ _ _ => EMPTY

/-- `VoxelData.__init__` followed by `_initialise_data`. -/
def init : VoxelData :=
  { width := WORLD_WIDTH, height := WORLD_HEIGHT, depth := WORLD_DEPTH
    undoBuf := Undo.init
    data := blank_data
    cache := []
    changed := false
    frame_count := 1
    current_frame := 0
    frames := [blank_data]
    occlusion := true }

/-- `is_valid_bounds`. -/
def is_valid_bounds (v : VoxelData) (x y z : Int) : Bool :=
  decide (x ≥ 0) && decide (x < v.width) &&
  decide (y ≥ 0) && decide (y < v.height) &&
  decide (z ≥ 0) && decide (z < v.depth)

/-- `VoxelData.set`.  The Qt-colour coercion branch
(`hasattr(state, "getRgb")`) is dropped: states reaching the embedding are
already packed ints.  On an out-of-bounds coordinate the method returns
`False` before touching anything.  Otherwise it (optionally) records a
`SET_VOXEL` undo item carrying the prior and the new state — a crash
inside `Undo.add` propagates as the `Except.error` —, writes the state,
inserts the coordinate into the cache if the state is non-empty and the
coordinate absent, removes it (first occurrence, guarded by membership)
if the state is empty, sets `changed`, and returns `True`.  `setPure` is
the pure state update a successful in-bounds `set` performs (voxel write,
incremental cache update, frame-alias synchronisation, `changed` flag),
with `u'` the undo state produced by `Undo.add`. -/
def setPure (v : VoxelData) (x y z state : Int) (u' : Undo) : VoxelData :=
  { v with undoBuf := u',
           data := fun a b c => if a = x ∧ b = y ∧ c = z then state else v.data a b c,
           cache :=
             if state ≠ EMPTY then
               if (x, y, z) ∈ v.cache then v.cache else v.cache ++ [(x, y, z)]
             else
               v.cache.erase (x, y, z),
           frames := v.frames.set v.current_frame
             (fun a b c => if a = x ∧ b = y ∧ c = z then state else v.data a b c),
           changed := true }

def set (v : VoxelData) (x y z state : Int) (undo : Bool := true) :
    Except String (Bool × VoxelData) :=
  if v.is_valid_bounds x y z = false then .ok (false, v)
  else
    match (if undo then
             v.undoBuf.add ⟨Undo.SET_VOXEL, [x, y, z, v.data x y z], [x, y, z, state]⟩
           else .ok v.undoBuf) with
    | .error e => .error e
    | .ok u' => .ok (true, v.setPure x y z state u')

/-- `VoxelData.get`: `EMPTY` out of bounds, the stored state otherwise. -/
def get (v : VoxelData) (x y z : Int) : Int :=
  if v.is_valid_bounds x y z = false then EMPTY else v.data x y z

/-- `_cache_rebuild`: re-derives the cache by scanning `x` (outer), `z`
(middle), `y` (inner) over the current dimensions, appending every
non-empty coordinate. -/
def cache_rebuild (v : VoxelData) : VoxelData :=
  { v with cache :=
      (List.range v.width.toNat).flatMap fun (x : ℕ) =>
        (List.range v.depth.toNat).flatMap fun (z : ℕ) =>
          (List.range v.height.toNat).filterMap fun (y : ℕ) =>
            if v.data (↑x) (↑y) (↑z) ≠ EMPTY then
              some ((↑x : Int), (↑y : Int), (↑z : Int))
            else none }

/-- `set_data`: deep-copies the argument into `_data` (copying is the
identity on the functional representation), rebuilds the cache and marks
the volume changed.  As in the source, `_frames` is *not* updated. -/
def set_data (v : VoxelData) (d : Int → Int → Int → Int) : VoxelData :=
  { ({ v with data := d }).cache_rebuild with changed := true }

/-- `select_frame`: rejects an out-of-range frame number, stores the
current data back into the frame list, switches `_data` to the requested
frame (an `IndexError` if the frames list is shorter than `_frame_count`,
which never happens in practice), moves the undo engine to that frame,
rebuilds the cache and marks the volume changed. -/
def select_frame (v : VoxelData) (frame_number : Int) : Except String VoxelData :=
  if frame_number < 0 ∨ frame_number ≥ (v.frame_count : Int) then .ok v
  else
    let frames1 := v.frames.set v.current_frame v.data
    match pyGet frames1 frame_number with
    | .error e => .error e
    | .ok newData =>
      .ok { ({ v with frames := frames1, data := newData,
                      current_frame := frame_number.toNat,
                      undoBuf := { v.undoBuf with frame := frame_number.toNat }
             }).cache_rebuild with changed := true }

/-- The array produced by `translate`'s copy loop, as a function.  The loop
writes `data[(tx+x)%w][(ty+y)%h][(tz+z)%d] = old[tx][ty][tz]` for every
in-bounds `(tx,ty,tz)`.  Since `t ↦ (t+δ) % dim` is a bijection of
`[0,dim)` for a positive `dim`, every in-bounds target `p` of the fresh
zero array is written exactly once, from source `(p-δ) % dim`; as a
function the new array is therefore `p ↦ old[(p-δ) % dim]` in bounds and
`0` outside (Python's `%` on a positive modulus is `Int.emod`). -/
def translatedData (v : VoxelData) (x y z : Int) : Int → Int → Int → Int :=
  fun a b c =>
    if v.is_valid_bounds a b c = true then
      v.data ((a - x) % v.width) ((b - y) % v.height) ((c - z) % v.depth)
    else EMPTY

/-- The pure state update of a non-trivial `translate` (with `u'` the undo
state produced by `Undo.add`): wrap-around copy, frame alias
synchronisation, cache rebuild, `changed` flag. -/
def translatePure (v : VoxelData) (x y z : Int) (u' : Undo) : VoxelData :=
  { ({ v with undoBuf := u', data := v.translatedData x y z,
              frames := v.frames.set v.current_frame (v.translatedData x y z)
     }).cache_rebuild with changed := true }

/-- `translate`.  All-zero deltas: a complete no-op (no undo entry, nothing
touched).  Otherwise a `TRANSLATE` undo item records the negated deltas as
old data (a crash inside `Undo.add` propagates), and the state is updated
by `translatePure`. -/
def translate (v : VoxelData) (x y z : Int) (undo : Bool := true) :
    Except String VoxelData :=
  if x = 0 ∧ y = 0 ∧ z = 0 then .ok v
  else
    match (if undo then
             v.undoBuf.add ⟨Undo.TRANSLATE, [-x, -y, -z], [x, y, z]⟩
           else .ok v.undoBuf) with
    | .error e => .error e
    | .ok u' => .ok (v.translatePure x y z u')

/-- `voxel_to_world` (exact rational arithmetic; `self.width//2` is Python
floor division, which on the non-negative dimensions equals `Int`
division). -/
def voxel_to_world (v : VoxelData) (x y z : ℚ) : ℚ × ℚ × ℚ :=
  let x1 := (x - ((v.width / 2 : Int) : ℚ)) - 1/2
  let y1 := (y - ((v.height / 2 : Int) : ℚ)) - 1/2
  let z1 := (z - ((v.depth / 2 : Int) : ℚ)) - 1/2
  (x1, y1, -z1)

/-- `world_to_voxel`. -/
def world_to_voxel (v : VoxelData) (x y z : ℚ) : ℚ × ℚ × ℚ :=
  let x1 := (x + ((v.width / 2 : Int) : ℚ)) + 1/2
  let y1 := (y + ((v.height / 2 : Int) : ℚ)) + 1/2
  let z1 := (z - ((v.depth / 2 : Int) : ℚ)) - 1/2
  (x1, y1, -z1)

/-- The pick-ID base of `_get_voxel_vertices`:
`voxel_id = (x & 0x7f)<<17 | (y & 0x7f)<<10 | (z & 0x7f)<<3`.
`Int.land` is Python's `&` (two's-complement semantics on negatives); the
masked components are non-negative, so the value is a natural number and
the shifts and ors are computed in `ℕ`. -/
def voxelId (x y z : Int) : ℕ :=
  ((Int.land x 0x7f).toNat <<< 17) ||| ((Int.land y 0x7f).toNat <<< 10) |||
    ((Int.land z 0x7f).toNat <<< 3)

/-- The pick-ID as the spec states it, for comparison with the code's
per-byte computation (claim C7):
`id = (x & 0x7f)<<17 | (y & 0x7f)<<10 | (z & 0x7f)<<3 | faceIndex`. -/
def pickId (x y z : Int) (faceIndex : ℕ) : ℕ :=
  ((Int.land x 0x7f).toNat <<< 17) ||| ((Int.land y 0x7f).toNat <<< 10) |||
    ((Int.land z 0x7f).toNat <<< 3) ||| faceIndex

/-- `_get_voxel_vertices`, modelled exactly except for the `colours`
channel: the per-vertex ambient-occlusion shades are
`int(channel * 0.7**level)` — double-precision floating point — and no
claim concerns them, so that output (and the occlusion neighbour probes
that feed only it) is omitted.  Returned channels, in source order of
emission (front, top, right, left, back, bottom):
`(vertices, normals, colour_ids, uvs)`. -/
def get_voxel_vertices (v : VoxelData) (x y z : Int) :
    List ℚ × List Int × List ℕ × List ℕ :=
  let front := decide (v.get x y (z-1) = EMPTY)
  let left := decide (v.get (x-1) y z = EMPTY)
  let right := decide (v.get (x+1) y z = EMPTY)
  let top := decide (v.get x (y+1) z = EMPTY)
  let back := decide (v.get x y (z+1) = EMPTY)
  let bottom := decide (v.get x (y-1) z = EMPTY)
  let vid := voxelId x y z
  let id_r := (vid &&& 0xff0000) >>> 16
  let id_g := (vid &&& 0xff00) >>> 8
  let id_b := vid &&& 0xff
  let w := v.voxel_to_world (x : ℚ) (y : ℚ) (z : ℚ)
  let X := w.1
  let Y := w.2.1
  let Z := w.2.2
  let quadUV : List ℕ := [0, 0, 0, 1, 1, 0, 1, 0, 0, 1, 1, 1]
  let verts :=
    (if front then [X, Y, Z, X, Y+1, Z, X+1, Y, Z,
                    X+1, Y, Z, X, Y+1, Z, X+1, Y+1, Z] else []) ++
    (if top then [X, Y+1, Z, X, Y+1, Z-1, X+1, Y+1, Z,
                  X+1, Y+1, Z, X, Y+1, Z-1, X+1, Y+1, Z-1] else []) ++
    (if right then [X+1, Y, Z, X+1, Y+1, Z, X+1, Y, Z-1,
                    X+1, Y, Z-1, X+1, Y+1, Z, X+1, Y+1, Z-1] else []) ++
    (if left then [X, Y, Z-1, X, Y+1, Z-1, X, Y, Z,
                   X, Y, Z, X, Y+1, Z-1, X, Y+1, Z] else []) ++
    (if back then [X+1, Y, Z-1, X+1, Y+1, Z-1, X, Y, Z-1,
                   X, Y, Z-1, X+1, Y+1, Z-1, X, Y+1, Z-1] else []) ++
    (if bottom then [X, Y, Z-1, X, Y, Z, X+1, Y, Z-1,
                     X+1, Y, Z-1, X, Y, Z, X+1, Y, Z] else [])
  let normals :=
    (if front then (List.replicate 6 ([0, 0, 1] : List Int)).flatten else []) ++
    (if top then (List.replicate 6 ([0, 1, 0] : List Int)).flatten else []) ++
    (if right then (List.replicate 6 ([1, 0, 0] : List Int)).flatten else []) ++
    (if left then (List.replicate 6 ([-1, 0, 0] : List Int)).flatten else []) ++
    (if back then (List.replicate 6 ([0, 0, -1] : List Int)).flatten else []) ++
    (if bottom then (List.replicate 6 ([0, -1, 0] : List Int)).flatten else [])
  let colour_ids :=
    (if front then (List.replicate 6 [id_r, id_g, id_b]).flatten else []) ++
    (if top then (List.replicate 6 [id_r, id_g, id_b ||| 1]).flatten else []) ++
    (if right then (List.replicate 6 [id_r, id_g, id_b ||| 3]).flatten else []) ++
    (if left then (List.replicate 6 [id_r, id_g, id_b ||| 2]).flatten else []) ++
    (if back then (List.replicate 6 [id_r, id_g, id_b ||| 4]).flatten else []) ++
    (if bottom then (List.replicate 6 [id_r, id_g, id_b ||| 5]).flatten else [])
  let uvs :=
    (if front then quadUV else []) ++ (if top then quadUV else []) ++
    (if right then quadUV else []) ++ (if left then quadUV else []) ++
    (if back then quadUV else []) ++ (if bottom then quadUV else [])
  (verts, normals, colour_ids, uvs)

/-- `get_vertices`: concatenation of the per-voxel arrays over the cache in
cache order (the float `colours` channel is omitted, see
`get_voxel_vertices`). -/
def get_vertices (v : VoxelData) : List ℚ × List Int × List ℕ × List ℕ :=
  (v.cache.flatMap fun p => (v.get_voxel_vertices p.1 p.2.1 p.2.2).1,
   v.cache.flatMap fun p => (v.get_voxel_vertices p.1 p.2.1 p.2.2).2.1,
   v.cache.flatMap fun p => (v.get_voxel_vertices p.1 p.2.1 p.2.2).2.2.1,
   v.cache.flatMap fun p => (v.get_voxel_vertices p.1 p.2.1 p.2.2).2.2.2)

/-- `get_bounding_box`: scans every frame (frames outer; then `x`, `z`, `y`
exactly as `_cache_rebuild` does) updating running minima/maxima that
start at the `999`/`-999` sentinels; returns
`(minx, miny, minz, width, height, depth)` with extents `max - min + 1`. -/
def get_bounding_box (v : VoxelData) : Int × Int × Int × Int × Int × Int :=
  let pts := v.frames.flatMap fun frame =>
    (List.range v.width.toNat).flatMap fun (xx : ℕ) =>
      (List.range v.depth.toNat).flatMap fun (zz : ℕ) =>
        (List.range v.height.toNat).filterMap fun (yy : ℕ) =>
          if frame (↑xx) (↑yy) (↑zz) ≠ EMPTY then
            some ((↑xx : Int), (↑yy : Int), (↑zz : Int))
          else none
  let step := fun (acc : (Int × Int × Int) × (Int × Int × Int)) (p : Int × Int × Int) =>
    ((if p.1 < acc.1.1 then p.1 else acc.1.1,
      if p.2.1 < acc.1.2.1 then p.2.1 else acc.1.2.1,
      if p.2.2 < acc.1.2.2 then p.2.2 else acc.1.2.2),
     (if p.1 > acc.2.1 then p.1 else acc.2.1,
      if p.2.1 > acc.2.2.1 then p.2.1 else acc.2.2.1,
      if p.2.2 > acc.2.2.2 then p.2.2 else acc.2.2.2))
  let r := pts.foldl step ((999, 999, 999), (-999, -999, -999))
  (r.1.1, r.1.2.1, r.1.2.2,
   (r.2.1 - r.1.1) + 1, (r.2.2.1 - r.1.2.1) + 1, (r.2.2.2 - r.1.2.2) + 1)

/-- `resize`.  `dims? = none` models the `width=None` default ("adjust to
the bounding box"); Python also treats an explicit width of `0` as falsy
and then re-derives all three dimensions.  All call sites pass either no
dimensions or all three, which the `Option` of a triple reflects.  The
per-frame copy loop writes `data[x+dx][y+dy][z+dz] = frame[x][y][z]` for
`x ∈ [mx, mx+movewidth)` (similarly `y`, `z`); each written target is
distinct, so functionally the new frame is `p ↦ frame[p - d]` on the
written region and `0` elsewhere.  When the non-empty written region is
not contained in the new bounds, Python raises an `IndexError` (positive
overflow) or writes through negative-index wraparound (only reachable
with a negative `shift`, which no caller uses); the embedding reports
both situations as `IndexError`. -/
def resize (v : VoxelData) (dims? : Option (Int × Int × Int)) (shift : Int := 0) :
    Except String VoxelData :=
  let u' := v.undoBuf.clear
  let bb := v.get_bounding_box
  let mx := bb.1
  let my := bb.2.1
  let mz := bb.2.2.1
  let cwidth := bb.2.2.2.1
  let cheight := bb.2.2.2.2.1
  let cdepth := bb.2.2.2.2.2
  let whd :=
      match dims? with
      | none => (cwidth, cheight, cdepth)
      | some (w, h, d) => if w = 0 then (cwidth, cheight, cdepth) else (w, h, d)
    let width := whd.1
    let height := whd.2.1
    let depth := whd.2.2
    let movewidth := min width cwidth
    let moveheight := min height cheight
    let movedepth := min depth cdepth
    let dx := (0 - mx) + shift
    let dy := (0 - my) + shift
    let dz := (0 - mz) + shift
    if (0 < movewidth ∧ (shift < 0 ∨ width < shift + movewidth)) ∨
       (0 < moveheight ∧ (shift < 0 ∨ height < shift + moveheight)) ∨
       (0 < movedepth ∧ (shift < 0 ∨ depth < shift + movedepth)) then
      .error "IndexError"
    else
      let frames' := v.frames.map fun frame => fun a b c =>
        if mx + dx ≤ a ∧ a < mx + dx + movewidth ∧
           my + dy ≤ b ∧ b < my + dy + moveheight ∧
           mz + dz ≤ c ∧ c < mz + dz + movedepth then
          frame (a - dx) (b - dy) (c - dz)
        else EMPTY
      match pyGet frames' (v.current_frame : Int) with
      | .error e => .error e
      | .ok d' =>
        .ok { ({ v with undoBuf := u', frames := frames', data := d',
                        width := width, height := height, depth := depth
               }).cache_rebuild with changed := true }

/-- `rotate_about_axis`.  The copy loop writes with negative first indices
(e.g. `dx = (-tz)-1` for the Y axis), which Python resolves from the end
of the freshly allocated list: the write lands at `newdim - 1 - tz`.
Every target of the new array is written exactly once, so functionally
the rotated frames are the inverse remaps below.  An axis value other
than `X_AXIS`/`Y_AXIS`/`Z_AXIS` leaves the local `width` unbound and the
method raises (`NameError`). -/
def rotate_about_axis (v : VoxelData) (axis : Int) : Except String VoxelData :=
  let u' := v.undoBuf.clear
  if axis = Y_AXIS then
    let width := v.depth
    let height := v.height
    let depth := v.width
    -- target (a,b,c) was written from (tx,ty,tz) = (c, b, v.depth-1-a)
    let frames' := v.frames.map fun frame => fun a b c =>
      if 0 ≤ a ∧ a < width ∧ 0 ≤ b ∧ b < height ∧ 0 ≤ c ∧ c < depth then
        frame c b (v.depth - 1 - a)
      else EMPTY
    match pyGet frames' (v.current_frame : Int) with
    | .error e => .error e
    | .ok d' =>
      .ok { ({ v with undoBuf := u', frames := frames', data := d',
                      width := width, height := height, depth := depth
             }).cache_rebuild with changed := true }
  else if axis = X_AXIS then
    let width := v.width
    let height := v.depth
    let depth := v.height
    -- target (a,b,c) was written from (tx,ty,tz) = (a, c, v.depth-1-b)
    let frames' := v.frames.map fun frame => fun a b c =>
      if 0 ≤ a ∧ a < width ∧ 0 ≤ b ∧ b < height ∧ 0 ≤ c ∧ c < depth then
        frame a c (v.depth - 1 - b)
      else EMPTY
    match pyGet frames' (v.current_frame : Int) with
    | .error e => .error e
    | .ok d' =>
      .ok { ({ v with undoBuf := u', frames := frames', data := d',
                      width := width, height := height, depth := depth
             }).cache_rebuild with changed := true }
  else if axis = Z_AXIS then
    let width := v.height
    let height := v.width
    let depth := v.depth
    -- target (a,b,c) was written from (tx,ty,tz) = (v.width-1-b, a, c)
    let frames' := v.frames.map fun frame => fun a b c =>
      if 0 ≤ a ∧ a < width ∧ 0 ≤ b ∧ b < height ∧ 0 ≤ c ∧ c < depth then
        frame (v.width - 1 - b) a c
      else EMPTY
    match pyGet frames' (v.current_frame : Int) with
    | .error e => .error e
    | .ok d' =>
      .ok { ({ v with undoBuf := u', frames := frames', data := d',
                      width := width, height := height, depth := depth
             }).cache_rebuild with changed := true }
  else .error "NameError"

/-- `VoxelData.undo`: pop an entry from the undo engine and re-apply its
*old* data through the normal mutating call with undo recording
suppressed. -/
def undo (v : VoxelData) : Except String VoxelData :=
  match v.undoBuf.undo with
  | .error e => .error e
  | .ok (op?, u') =>
    let v1 := { v with undoBuf := u' }
    match op? with
    | none => .ok v1
    | some op =>
      if op.operation = Undo.SET_VOXEL then
        match op.olddata with
        | d0 :: d1 :: d2 :: d3 :: _ =>
          match v1.set d0 d1 d2 d3 false with
          | .error e => .error e
          | .ok (_, v2) => .ok v2
        | _ => .error "IndexError"
      else if op.operation = Undo.TRANSLATE then
        match op.olddata with
        | d0 :: d1 :: d2 :: _ => v1.translate d0 d1 d2 false
        | _ => .error "IndexError"
      else .ok v1

/-- `VoxelData.redo`: advance the undo engine and re-apply the returned
entry's *new* data with undo recording suppressed. -/
def redo (v : VoxelData) : Except String VoxelData :=
  match v.undoBuf.redo with
  | .error e => .error e
  | .ok (op?, u') =>
    let v1 := { v with undoBuf := u' }
    match op? with
    | none => .ok v1
    | some op =>
      if op.operation = Undo.SET_VOXEL then
        match op.newdata with
        | d0 :: d1 :: d2 :: d3 :: _ =>
          match v1.set d0 d1 d2 d3 false with
          | .error e => .error e
          | .ok (_, v2) => .ok v2
        | _ => .error "IndexError"
      else if op.operation = Undo.TRANSLATE then
        match op.newdata with
        | d0 :: d1 :: d2 :: _ => v1.translate d0 d1 d2 false
        | _ => .error "IndexError"
      else .ok v1

end VoxelData

/-- The cache invariant of claim C1: the occupied-coordinate cache holds no
duplicates, contains only in-bounds coordinates whose stored state is
non-`EMPTY`, and contains every in-bounds coordinate whose stored state is
non-`EMPTY`.  (The bounded quantifiers keep the predicate decidable on
concrete states.) -/
def CacheInv (v : VoxelData) : Prop :=
  v.cache.Nodup ∧
  (∀ p ∈ v.cache, v.is_valid_bounds p.1 p.2.1 p.2.2 = true ∧
      v.data p.1 p.2.1 p.2.2 ≠ EMPTY) ∧
  (∀ x ∈ List.range v.width.toNat, ∀ y ∈ List.range v.height.toNat,
      ∀ z ∈ List.range v.depth.toNat,
      v.data (x : Int) (y : Int) (z : Int) ≠ EMPTY →
        ((x : Int), (y : Int), (z : Int)) ∈ v.cache)

instance (v : VoxelData) : Decidable (CacheInv v) := by
  unfold CacheInv
  infer_instance

/-! ### Concrete states used by the witnesses -/

/-- A fresh 2×2×2 volume (same shape `__init__` builds, smaller for fast
evaluation). -/
def vox2 : VoxelData :=
  { width := 2, height := 2, depth := 2, undoBuf := Undo.init,
    data := fun _ _ _ => 0, cache := [], changed := false,
    frame_count := 1, current_frame := 0, frames := [fun _ _ _ => 0],
    occlusion := true }

/-- `vox2` after `set(0,0,0,7)`. -/
def vox2a : VoxelData :=
  match vox2.set 0 0 0 7 true with
  | .ok r => r.2
  | .error _ => vox2

/-- `vox2a` after `set(1,0,0,9)`. -/
def vox2b : VoxelData :=
  match vox2a.set 1 0 0 9 true with
  | .ok r => r.2
  | .error _ => vox2a

/-- A 3×3×3 volume holding the single voxel `(1,1,1)` (state `255`). -/
def vox3 : VoxelData :=
  { width := 3, height := 3, depth := 3, undoBuf := Undo.init,
    data := fun a b c => if a = 1 ∧ b = 1 ∧ c = 1 then 255 else 0,
    cache := [(1, 1, 1)], changed := false,
    frame_count := 1, current_frame := 0, frames := [fun _ _ _ => 0],
    occlusion := true }

/-- `vox3` translated by `(1, 0, 1)` (undo recording off). -/
def vox3t : VoxelData :=
  match vox3.translate 1 0 1 false with
  | .ok r => r
  | .error _ => vox3

/-- `vox3t` translated back by `(-1, 0, -1)` (undo recording off). -/
def vox3tt : VoxelData :=
  match vox3t.translate (-1) 0 (-1) false with
  | .ok r => r
  | .error _ => vox3t

/-- A 4×3×3 volume holding the two voxels `(1,1,1)` and `(2,1,1)`, adjacent
along x (both state `255`, cache in insertion order). -/
def vox4 : VoxelData :=
  { width := 4, height := 3, depth := 3, undoBuf := Undo.init,
    data := fun a b c => if (a = 1 ∨ a = 2) ∧ b = 1 ∧ c = 1 then 255 else 0,
    cache := [(1, 1, 1), (2, 1, 1)], changed := false,
    frame_count := 1, current_frame := 0, frames := [fun _ _ _ => 0],
    occlusion := true }

/-! ### Helper lemmas -/

theorem is_valid_bounds_iff {v : VoxelData} {x y z : Int} :
    v.is_valid_bounds x y z = true ↔
      0 ≤ x ∧ x < v.width ∧ 0 ≤ y ∧ y < v.height ∧ 0 ≤ z ∧ z < v.depth := by
  simp [VoxelData.is_valid_bounds, ge_iff_le, and_assoc]

theorem pyGet_coe_nat {α : Type} {l : List α} {n : ℕ} {a : α}
    (h : l[n]? = some a) : pyGet l (n : Int) = .ok a := by
  obtain ⟨hlt, rfl⟩ := List.getElem?_eq_some_iff.mp h
  unfold pyGet pyIndex
  rw [if_neg (show ¬ ((n : Int) < 0) by omega), if_pos (show (0 : Int) ≤ (n : Int) by omega)]
  simp [List.getElem?_eq_getElem hlt]

theorem rebuilt_cache_mem {v : VoxelData} {p : Int × Int × Int} :
    p ∈ v.cache_rebuild.cache ↔
      v.is_valid_bounds p.1 p.2.1 p.2.2 = true ∧ v.data p.1 p.2.1 p.2.2 ≠ EMPTY := by
  obtain ⟨a, b, c⟩ := p
  simp only [VoxelData.cache_rebuild, List.mem_flatMap, List.mem_filterMap, List.mem_range,
    is_valid_bounds_iff, Option.ite_none_right_eq_some, Option.some_inj]
  constructor
  · rintro ⟨x, hx, z, hz, y, hy, hd, heq⟩
    obtain ⟨rfl, rfl, rfl⟩ : (x : Int) = a ∧ (y : Int) = b ∧ (z : Int) = c := by
      simpa [Prod.ext_iff] using heq
    exact ⟨by omega, hd⟩
  · rintro ⟨⟨ha0, haw, hb0, hbh, hc0, hcd⟩, hd⟩
    refine ⟨a.toNat, by omega, c.toNat, by omega, b.toNat, by omega, ?_⟩
    rw [Int.toNat_of_nonneg ha0, Int.toNat_of_nonneg hb0, Int.toNat_of_nonneg hc0]
    exact ⟨hd, rfl⟩

theorem rebuilt_cache_nodup (v : VoxelData) : v.cache_rebuild.cache.Nodup := by
  have hinner : ∀ x z : ℕ, ∀ p : Int × Int × Int,
      p ∈ (List.range v.height.toNat).filterMap (fun (y : ℕ) =>
        if v.data (↑x) (↑y) (↑z) ≠ EMPTY then some ((↑x : Int), (↑y : Int), (↑z : Int))
        else none) →
      p.1 = (x : Int) ∧ p.2.2 = (z : Int) := by
    intro x z p hp
    simp only [List.mem_filterMap, List.mem_range, Option.ite_none_right_eq_some,
      Option.some_inj] at hp
    obtain ⟨y, _, _, hy⟩ := hp
    simp [← hy]
  simp only [VoxelData.cache_rebuild]
  rw [List.nodup_flatMap]
  constructor
  · intro x _
    rw [List.nodup_flatMap]
    constructor
    · intro z _
      apply List.Nodup.filterMap ?_ (List.nodup_range _)
      intro a a' b hb hb'
      simp only [Option.mem_def, Option.ite_none_right_eq_some, Option.some_inj] at hb hb'
      have heq := hb.2.trans hb'.2.symm
      simp only [Prod.mk.injEq] at heq
      obtain ⟨-, h2, -⟩ := heq
      omega
    · apply List.Pairwise.imp ?_ (List.pairwise_lt_range _)
      intro z z' hzz p hp hp'
      have h1 := hinner x z p hp
      have h2 := hinner x z' p hp'
      omega
  · apply List.Pairwise.imp ?_ (List.pairwise_lt_range _)
    intro x x' hxx p hp hp'
    simp only [List.mem_flatMap, List.mem_range] at hp hp'
    obtain ⟨z, -, hpz⟩ := hp
    obtain ⟨z', -, hpz'⟩ := hp'
    have h1 := hinner x z p hpz
    have h2 := hinner x' z' p hpz'
    omega

/-- `_cache_rebuild` (followed by any update that leaves `cache`, `data`
and the dimensions alone) re-establishes the cache invariant. -/
theorem cacheInv_rebuild (v : VoxelData) : CacheInv v.cache_rebuild := by
  refine ⟨rebuilt_cache_nodup v, ?_, ?_⟩
  · intro p hp
    exact rebuilt_cache_mem.mp hp
  · intro x hx y hy z hz hd
    apply rebuilt_cache_mem.mpr
    simp only [List.mem_range] at hx hy hz
    have hx' : x < v.width.toNat := hx
    have hy' : y < v.height.toNat := hy
    have hz' : z < v.depth.toNat := hz
    exact ⟨is_valid_bounds_iff.mpr (by dsimp only; omega), hd⟩

theorem cacheInv_mem_iff {v : VoxelData} (h : CacheInv v) {x y z : Int} :
    (x, y, z) ∈ v.cache ↔
      v.is_valid_bounds x y z = true ∧ v.data x y z ≠ EMPTY := by
  obtain ⟨hnd, hfwd, hbwd⟩ := h
  constructor
  · intro hm
    exact hfwd _ hm
  · rintro ⟨hb, hd⟩
    rw [is_valid_bounds_iff] at hb
    have := hbwd x.toNat (by simp only [List.mem_range]; omega)
      y.toNat (by simp only [List.mem_range]; omega)
      z.toNat (by simp only [List.mem_range]; omega)
    rw [Int.toNat_of_nonneg hb.1, Int.toNat_of_nonneg hb.2.2.1,
      Int.toNat_of_nonneg hb.2.2.2.2.1] at this
    exact this hd

/-- Counting under `Nodup` membership, generic in the `BEq` instance. -/
theorem count_eq_one_of_nodup_mem {α : Type} [BEq α] [LawfulBEq α] {l : List α} {a : α}
    (hnd : l.Nodup) (h : a ∈ l) : l.count a = 1 := by
  induction l with
  | nil => cases h
  | cons b t ih =>
    obtain ⟨hbt, hndt⟩ := List.nodup_cons.mp hnd
    rw [List.count_cons]
    rcases List.mem_cons.mp h with rfl | hmem
    · rw [List.count_eq_zero_of_not_mem hbt]
      simp
    · have hba : ¬(b == a) = true := by
        rw [beq_iff_eq]
        rintro rfl
        exact hbt hmem
      rw [ih hndt hmem]
      simp [hba]

/-- Membership in the cache after `set`'s incremental update. -/
theorem setCache_mem {cache : List (Int × Int × Int)} (hnd : cache.Nodup)
    {t p : Int × Int × Int} {c : Int} :
    (p ∈ (if c ≠ EMPTY then (if t ∈ cache then cache else cache ++ [t])
          else cache.erase t)) ↔
      ((c ≠ EMPTY ∧ (p ∈ cache ∨ p = t)) ∨ (c = EMPTY ∧ p ∈ cache ∧ p ≠ t)) := by
  by_cases hc : c = EMPTY
  · subst hc
    rw [if_neg (by simp)]
    rw [hnd.mem_erase_iff]
    constructor
    · rintro ⟨hne, hp⟩
      exact Or.inr ⟨rfl, hp, hne⟩
    · rintro (⟨hc, -⟩ | ⟨-, hp, hne⟩)
      · exact absurd rfl hc
      · exact ⟨hne, hp⟩
  · rw [if_pos hc]
    by_cases ht : t ∈ cache
    · rw [if_pos ht]
      constructor
      · intro h
        exact Or.inl ⟨hc, Or.inl h⟩
      · rintro (⟨-, h | rfl⟩ | ⟨he, -⟩)
        · exact h
        · exact ht
        · exact absurd he hc
    · rw [if_neg ht]
      simp only [List.mem_append, List.mem_singleton]
      constructor
      · rintro (h | rfl)
        · exact Or.inl ⟨hc, Or.inl h⟩
        · exact Or.inl ⟨hc, Or.inr rfl⟩
      · rintro (⟨-, h | rfl⟩ | ⟨he, -⟩)
        · exact Or.inl h
        · exact Or.inr rfl
        · exact absurd he hc

/-- The cache stays duplicate-free across `set`'s incremental update. -/
theorem setCache_nodup {cache : List (Int × Int × Int)} (hnd : cache.Nodup)
    {t : Int × Int × Int} {c : Int} :
    (if c ≠ EMPTY then (if t ∈ cache then cache else cache ++ [t])
     else cache.erase t).Nodup := by
  by_cases hc : c = EMPTY
  · subst hc
    rw [if_neg (by simp)]
    exact hnd.erase t
  · rw [if_pos hc]
    by_cases ht : t ∈ cache
    · rwa [if_pos ht]
    · rw [if_neg ht, ← List.concat_eq_append]
      exact hnd.concat ht

theorem setPure_cache (v : VoxelData) (x y z c : Int) (u' : Undo) :
    (v.setPure x y z c u').cache =
      if c ≠ EMPTY then
        (if (x, y, z) ∈ v.cache then v.cache else v.cache ++ [(x, y, z)])
      else v.cache.erase (x, y, z) := rfl

theorem setPure_data (v : VoxelData) (x y z c : Int) (u' : Undo) :
    (v.setPure x y z c u').data =
      fun a b c' => if a = x ∧ b = y ∧ c' = z then c else v.data a b c' := rfl

theorem setPure_bounds (v : VoxelData) (x y z c : Int) (u' : Undo) (a b d : Int) :
    (v.setPure x y z c u').is_valid_bounds a b d = v.is_valid_bounds a b d := rfl

theorem get_of_bounds {v : VoxelData} {x y z : Int}
    (hb : v.is_valid_bounds x y z = true) : v.get x y z = v.data x y z := by
  unfold VoxelData.get
  rw [hb]
  rw [if_neg (by decide : ¬(true = false))]

/-- Elimination principle for a successful in-bounds `set`: names the undo
state produced by `Undo.add` and identifies the post-state as `setPure`. -/
theorem set_ok_elim {v v' : VoxelData} {x y z c : Int} {u : Bool} {b : Bool}
    (hb : v.is_valid_bounds x y z = true)
    (h : v.set x y z c u = .ok (b, v')) :
    ∃ u', (if u then v.undoBuf.add ⟨Undo.SET_VOXEL, [x, y, z, v.data x y z], [x, y, z, c]⟩
           else .ok v.undoBuf) = .ok u' ∧
      b = true ∧ v' = v.setPure x y z c u' := by
  unfold VoxelData.set at h
  rw [hb, if_neg (by decide : ¬(true = false))] at h
  split at h
  · exact absurd h (by simp)
  · rename_i u' hu
    simp only [Except.ok.injEq, Prod.mk.injEq] at h
    exact ⟨u', hu, h.1.symm, h.2.symm⟩

/-- An in-bounds `setPure` preserves the cache invariant and realises the C1
post-conditions. -/
theorem setPure_props {v : VoxelData} {x y z c : Int} {w : Undo}
    (hinv : CacheInv v) (hb : v.is_valid_bounds x y z = true) :
    CacheInv (v.setPure x y z c w) ∧ (v.setPure x y z c w).get x y z = c ∧
      (c ≠ EMPTY → (v.setPure x y z c w).cache.count (x, y, z) = 1) ∧
      (c = EMPTY → (x, y, z) ∉ (v.setPure x y z c w).cache) := by
  obtain ⟨hnd, hfwd, hbwd⟩ := hinv
  have hdiag : ∀ p : Int × Int × Int, p ≠ (x, y, z) →
      ¬(p.1 = x ∧ p.2.1 = y ∧ p.2.2 = z) := by
    rintro ⟨p1, p2, p3⟩ hne ⟨e1, e2, e3⟩
    exact hne (by simp_all)
  refine ⟨⟨?_, ?_, ?_⟩, ?_, ?_, ?_⟩
  · rw [setPure_cache]
    exact setCache_nodup hnd
  · -- every cached coordinate is in bounds and non-empty
    intro p hp
    rw [setPure_cache, setCache_mem hnd] at hp
    rw [setPure_bounds, setPure_data]
    rcases hp with ⟨hc, hp | rfl⟩ | ⟨hc, hp, hne⟩
    · rcases eq_or_ne p (x, y, z) with rfl | hne
      · exact ⟨hb, by simpa using hc⟩
      · obtain ⟨h1, h2⟩ := hfwd p hp
        exact ⟨h1, by simpa [hdiag p hne] using h2⟩
    · exact ⟨hb, by simpa using hc⟩
    · obtain ⟨h1, h2⟩ := hfwd p hp
      exact ⟨h1, by simpa [hdiag p hne] using h2⟩
  · -- every in-bounds non-empty coordinate is cached
    intro xa hxa ya hya za hza hd
    rw [setPure_data] at hd
    rw [setPure_cache, setCache_mem hnd]
    have hxa' : (xa : ℕ) ∈ List.range v.width.toNat := hxa
    have hya' : (ya : ℕ) ∈ List.range v.height.toNat := hya
    have hza' : (za : ℕ) ∈ List.range v.depth.toNat := hza
    by_cases he : ((xa : Int), (ya : Int), (za : Int)) = (x, y, z)
    · have he' := he
      simp only [Prod.mk.injEq] at he'
      have hc : c ≠ EMPTY := by
        simpa [he'.1, he'.2.1, he'.2.2] using hd
      exact Or.inl ⟨hc, Or.inr he⟩
    · have hd' : v.data (↑xa) (↑ya) (↑za) ≠ EMPTY := by
        simpa [hdiag _ he] using hd
      have hmem := hbwd xa hxa' ya hya' za hza' hd'
      by_cases hc : c = EMPTY
      · exact Or.inr ⟨hc, hmem, he⟩
      · exact Or.inl ⟨hc, Or.inl hmem⟩
  · -- get returns the written state
    rw [get_of_bounds ((setPure_bounds v x y z c w x y z).trans hb), setPure_data]
    simp
  · -- a non-empty write is cached exactly once
    intro hc
    rw [setPure_cache, if_pos hc]
    by_cases ht : (x, y, z) ∈ v.cache
    · rw [if_pos ht]
      exact count_eq_one_of_nodup_mem hnd ht
    · rw [if_neg ht, List.count_append, List.count_eq_zero_of_not_mem ht]
      simp
  · -- an empty write leaves the coordinate out of the cache
    intro hc
    rw [setPure_cache, if_neg (by simpa using hc)]
    rw [hnd.mem_erase_iff]
    simp

theorem cacheInv_rebuild_changed (w : VoxelData) (b : Bool) :
    CacheInv { w.cache_rebuild with changed := b } := cacheInv_rebuild w

theorem translate_ok_inv {v v' : VoxelData} {x y z : Int} {u : Bool}
    (hinv : CacheInv v) (h : v.translate x y z u = .ok v') : CacheInv v' := by
  unfold VoxelData.translate at h
  split at h
  · obtain rfl : v = v' := by simpa using h
    exact hinv
  · split at h
    · exact absurd h (by simp)
    · obtain rfl : _ = v' := by simpa using h
      unfold VoxelData.translatePure
      exact cacheInv_rebuild_changed _ true

theorem set_data_inv (v : VoxelData) (d : Int → Int → Int → Int) :
    CacheInv (v.set_data d) := by
  unfold VoxelData.set_data
  exact cacheInv_rebuild_changed _ true

theorem select_frame_ok_inv {v v' : VoxelData} {n : Int}
    (hinv : CacheInv v) (h : v.select_frame n = .ok v') : CacheInv v' := by
  unfold VoxelData.select_frame at h
  split at h
  · obtain rfl : v = v' := by simpa using h
    exact hinv
  · dsimp only at h
    split at h
    · exact absurd h (by simp)
    · obtain rfl : _ = v' := by simpa using h
      exact cacheInv_rebuild_changed _ true

theorem resize_ok_inv {v v' : VoxelData} {dims? : Option (Int × Int × Int)} {shift : Int}
    (h : v.resize dims? shift = .ok v') : CacheInv v' := by
  unfold VoxelData.resize at h
  dsimp only at h
  split at h
  · exact absurd h (by simp)
  · split at h
    · exact absurd h (by simp)
    · obtain rfl : _ = v' := by simpa using h
      exact cacheInv_rebuild_changed _ true

theorem rotate_ok_inv {v v' : VoxelData} {axis : Int}
    (h : v.rotate_about_axis axis = .ok v') : CacheInv v' := by
  unfold VoxelData.rotate_about_axis at h
  dsimp only at h
  split at h
  · split at h
    · exact absurd h (by simp)
    · obtain rfl : _ = v' := by simpa using h
      exact cacheInv_rebuild_changed _ true
  · split at h
    · split at h
      · exact absurd h (by simp)
      · obtain rfl : _ = v' := by simpa using h
        exact cacheInv_rebuild_changed _ true
    · split at h
      · split at h
        · exact absurd h (by simp)
        · obtain rfl : _ = v' := by simpa using h
          exact cacheInv_rebuild_changed _ true
      · exact absurd h (by simp)

/-- `Undo.add` in the only healthy case: with the pointer already at the
end of the current frame's log, the item is appended and the pointer moves
to it. -/
theorem add_append {u : Undo} {fs : List (List UndoItem)} {log : List UndoItem}
    (item : UndoItem)
    (hen : u.enabled = true) (hbuf : u.buffer = .frames fs)
    (hlog : fs[u.frame]? = some log)
    (hptr : u.ptr[u.frame]? = some ((log.length : Int) - 1)) :
    u.add item = .ok { u with buffer := .frames (fs.set u.frame (log ++ [item])),
                              ptr := u.ptr.set u.frame
                                (((log ++ [item]).length : Int) - 1) } := by
  obtain ⟨en, buf, ptr, fr⟩ := u
  dsimp only at hen hbuf hlog hptr ⊢
  subst hen hbuf
  unfold Undo.add
  rw [if_neg (by decide : ¬(true = false))]
  dsimp only
  rw [pyGet_coe_nat hptr, pyGet_coe_nat hlog]
  dsimp only
  rw [if_neg (by omega : ¬((log.length : Int) - 1 < (log.length : Int) - 1))]

theorem vox2_inv : CacheInv vox2 := by decide

theorem vox2a_eq : vox2.set 0 0 0 7 true = .ok (true, vox2a) := rfl

/-! ### The claims -/

/-- C1: the occupied-coordinate cache is always exactly the set of
coordinates whose stored state is non-EMPTY, without duplicates.  For a
state satisfying the invariant: a successful in-bounds `set(x,y,z,c)` with
`c ≠ EMPTY` preserves the invariant, makes `get(x,y,z)` return `c` and
leaves `(x,y,z)` in the cache exactly once; with `c = EMPTY` it preserves
the invariant and removes `(x,y,z)` from the cache (idempotently when
absent); and every other mutation — `translate`, `resize`,
`rotate_about_axis`, `set_data`, `select_frame` — re-establishes the same
invariant (the bulk operations by rebuild). -/
theorem c1_cache_invariant (v : VoxelData) (hinv : CacheInv v) :
    (∀ x y z c b v', v.is_valid_bounds x y z = true →
        v.set x y z c true = .ok (b, v') →
        b = true ∧ CacheInv v' ∧ v'.get x y z = c ∧
        (c ≠ EMPTY → v'.cache.count (x, y, z) = 1) ∧
        (c = EMPTY → (x, y, z) ∉ v'.cache)) ∧
    (∀ x y z u v', v.translate x y z u = .ok v' → CacheInv v') ∧
    (∀ dims shift v', v.resize dims shift = .ok v' → CacheInv v') ∧
    (∀ axis v', v.rotate_about_axis axis = .ok v' → CacheInv v') ∧
    (∀ d, CacheInv (v.set_data d)) ∧
    (∀ n v', v.select_frame n = .ok v' → CacheInv v') := by
  refine ⟨?_, ?_, ?_, ?_, ?_, ?_⟩
  · intro x y z c b v' hb hset
    obtain ⟨u', -, rfl, rfl⟩ := set_ok_elim hb hset
    obtain ⟨h1, h2, h3, h4⟩ := setPure_props hinv hb (c := c) (w := u')
    exact ⟨rfl, h1, h2, h3, h4⟩
  · intro x y z u v' h
    exact translate_ok_inv hinv h
  · intro dims shift v' h
    exact resize_ok_inv h
  · intro axis v' h
    exact rotate_ok_inv h
  · intro d
    exact set_data_inv v d
  · intro n v' h
    exact select_frame_ok_inv hinv h

/-- Witness for C1 at a concrete input: the fresh 2×2×2 volume satisfies
the invariant, and `set(0,0,0,7)` yields a state satisfying it in which
`get(0,0,0) = 7` and the cache holds `(0,0,0)` exactly once. -/
theorem c1_cache_invariant_witness :
    CacheInv vox2 ∧ vox2.is_valid_bounds 0 0 0 = true ∧
      CacheInv vox2a ∧ vox2a.get 0 0 0 = 7 ∧ vox2a.cache.count (0, 0, 0) = 1 := by
  have h := (c1_cache_invariant vox2 vox2_inv).1 0 0 0 7 true vox2a (by decide) vox2a_eq
  exact ⟨vox2_inv, by decide, h.2.1, h.2.2.1, h.2.2.2.1 (by decide)⟩

/-- C5: for every out-of-bounds coordinate, `get` returns `EMPTY` (and
never raises), and `set` returns `False` while leaving the whole state —
voxel data, occupied cache, changed flag, undo log — untouched (the
returned state is the input state itself, so no undo entry is appended). -/
theorem c5_out_of_bounds (v : VoxelData) (x y z c : Int) (u : Bool)
    (h : v.is_valid_bounds x y z = false) :
    v.get x y z = EMPTY ∧ v.set x y z c u = .ok (false, v) := by
  constructor
  · unfold VoxelData.get
    rw [h, if_pos rfl]
  · unfold VoxelData.set
    rw [h, if_pos rfl]

/-- Witness for C5 at the concrete out-of-bounds coordinate `(-1,0,0)` of
the 2×2×2 volume. -/
theorem c5_out_of_bounds_witness :
    vox2.is_valid_bounds (-1) 0 0 = false ∧
      vox2.get (-1) 0 0 = EMPTY ∧ vox2.set (-1) 0 0 5 true = .ok (false, vox2) :=
  ⟨by decide, c5_out_of_bounds vox2 (-1) 0 0 5 true (by decide)⟩

/-- C2 (code bug): `set(0,0,0,1)` then `undo()` leaves the pointer at `-1`
with a one-entry log, so the next `set(0,0,0,5)` enters `Undo.add`'s
truncation branch.  Instead of discarding the stale redo entries from the
frame's log and appending the new item, the source assigns the sliced
inner log to `self._buffer` itself, and the subsequent
`self._buffer[0].append(item)` raises `IndexError`: the new `set` crashes
rather than appending, and the per-frame log structure is destroyed. -/
theorem c2_add_truncation_crashes :
    ((vox2.set 0 0 0 1 true).bind fun r => r.2.undo).bind
        (fun w => w.set 0 0 0 5 true) = .error "IndexError" := rfl

/-- C3 (code bug): after `set(0,0,0,1)`, `set(0,0,0,2)` and two `undo()`s
the pointer is `-1`, all entries are undone and the voxel is back to `0`;
claim C3 says a further `undo()` returns no entry and changes nothing.
Instead `_valid_buffer` only checks that the log is non-empty, the read
`self._buffer[self._frame][-1]` resolves to the *last* log entry (Python
negative indexing), and its old data is re-applied: the voxel becomes `1`
again (the pointer stays floored at `-1`). -/
theorem c3_undo_past_beginning :
    (((((vox2.set 0 0 0 1 true).bind fun r => r.2.set 0 0 0 2 true).bind
          fun r => r.2.undo).bind fun w => w.undo).map
        fun w => w.get 0 0 0) = .ok 0 ∧
    ((((((vox2.set 0 0 0 1 true).bind fun r => r.2.set 0 0 0 2 true).bind
          fun r => r.2.undo).bind fun w => w.undo).bind fun w => w.undo).map
        fun w => (w.get 0 0 0, w.undoBuf.ptr)) = .ok (1, [-1]) :=
  ⟨rfl, rfl⟩

/-- C10: an in-bounds `set` whose state equals the value already stored is
not short-circuited — from any healthy undo state (pointer at the end of
the current frame's log) it still returns `True`, still sets the `changed`
flag, and still appends a `SET_VOXEL` item whose old and new tuples are
identical, lengthening the log by one, while the voxel data is unchanged. -/
theorem c10_redundant_set (v : VoxelData) (x y z : Int)
    (fs : List (List UndoItem)) (log : List UndoItem)
    (hb : v.is_valid_bounds x y z = true)
    (hen : v.undoBuf.enabled = true)
    (hbuf : v.undoBuf.buffer = .frames fs)
    (hlog : fs[v.undoBuf.frame]? = some log)
    (hptr : v.undoBuf.ptr[v.undoBuf.frame]? = some ((log.length : Int) - 1)) :
    ∃ v', v.set x y z (v.data x y z) true = .ok (true, v') ∧
      v'.changed = true ∧
      v'.undoBuf.buffer = .frames (fs.set v.undoBuf.frame
        (log ++ [⟨Undo.SET_VOXEL, [x, y, z, v.data x y z],
                  [x, y, z, v.data x y z]⟩])) ∧
      v'.data = v.data := by
  have hadd := add_append
    (⟨Undo.SET_VOXEL, [x, y, z, v.data x y z], [x, y, z, v.data x y z]⟩ : UndoItem)
    hen hbuf hlog hptr
  refine ⟨v.setPure x y z (v.data x y z)
      { v.undoBuf with
        buffer := .frames (fs.set v.undoBuf.frame
          (log ++ ([⟨Undo.SET_VOXEL, [x, y, z, v.data x y z],
                     [x, y, z, v.data x y z]⟩] : List UndoItem))),
        ptr := v.undoBuf.ptr.set v.undoBuf.frame
          (((log ++ ([⟨Undo.SET_VOXEL, [x, y, z, v.data x y z],
                       [x, y, z, v.data x y z]⟩] : List UndoItem)).length : Int) - 1) },
    ?_, rfl, rfl, ?_⟩
  · unfold VoxelData.set
    rw [hb, if_neg (by decide : ¬(true = false)), if_pos rfl, hadd]
  · rw [setPure_data]
    funext a b c'
    by_cases h : a = x ∧ b = y ∧ c' = z
    · rw [if_pos h]
      obtain ⟨rfl, rfl, rfl⟩ := h
      rfl
    · rw [if_neg h]

/-- Witness for C10: in the 2×2×2 volume already holding `7` at `(0,0,0)`
(one log entry, pointer at the end), the redundant `set(0,0,0,7)` returns
`True`, marks the volume changed, appends the identical-tuples item and
leaves the data unchanged. -/
theorem c10_redundant_set_witness :
    vox2a.is_valid_bounds 0 0 0 = true ∧
      (∃ v', vox2a.set 0 0 0 (vox2a.data 0 0 0) true = .ok (true, v') ∧
        v'.changed = true ∧
        v'.undoBuf.buffer = .frames [[⟨Undo.SET_VOXEL, [0, 0, 0, 0], [0, 0, 0, 7]⟩,
          ⟨Undo.SET_VOXEL, [0, 0, 0, vox2a.data 0 0 0], [0, 0, 0, vox2a.data 0 0 0]⟩]] ∧
        v'.data = vox2a.data) :=
  ⟨by decide,
   c10_redundant_set vox2a 0 0 0
     [[⟨Undo.SET_VOXEL, [0, 0, 0, 0], [0, 0, 0, 7]⟩]]
     [⟨Undo.SET_VOXEL, [0, 0, 0, 0], [0, 0, 0, 7]⟩]
     (by decide) rfl rfl rfl rfl⟩

theorem translate_ok_elim {v v' : VoxelData} {x y z : Int} {u : Bool}
    (hnz : ¬(x = 0 ∧ y = 0 ∧ z = 0)) (h : v.translate x y z u = .ok v') :
    ∃ u', v' = v.translatePure x y z u' := by
  unfold VoxelData.translate at h
  rw [if_neg hnz] at h
  split at h
  · exact absurd h (by simp)
  · rename_i u' hu
    exact ⟨u', by simpa using h.symm⟩

theorem emod_roundtrip {t δ m : Int} (_hm : 0 < m) (ht1 : 0 ≤ t) (ht2 : t < m) :
    ((t + δ) % m - δ) % m = t := by
  conv_lhs => rw [Int.sub_emod, Int.emod_emod, ← Int.sub_emod]
  rw [show t + δ - δ = t by ring]
  exact Int.emod_eq_of_lt ht1 ht2

/-- Translating and then translating back pointwise restores the voxel
data: the per-axis wrap-around is a bijection of the coordinate domain. -/
theorem translatePure_roundtrip_data (v : VoxelData) (dx dy dz : Int) (u1 u2 : Undo)
    (hw : 0 < v.width) (hh : 0 < v.height) (hd : 0 < v.depth)
    {a b c : Int} (hab : v.is_valid_bounds a b c = true) :
    ((v.translatePure dx dy dz u1).translatePure (-dx) (-dy) (-dz) u2).data a b c
      = v.data a b c := by
  obtain ⟨h1, h2, h3, h4, h5, h6⟩ := is_valid_bounds_iff.mp hab
  show (if v.is_valid_bounds a b c = true then
          v.translatedData dx dy dz ((a - -dx) % v.width) ((b - -dy) % v.height)
            ((c - -dz) % v.depth)
        else EMPTY) = v.data a b c
  rw [if_pos hab, Int.sub_neg, Int.sub_neg, Int.sub_neg]
  show (if v.is_valid_bounds ((a + dx) % v.width) ((b + dy) % v.height)
            ((c + dz) % v.depth) = true then
          v.data (((a + dx) % v.width - dx) % v.width)
            (((b + dy) % v.height - dy) % v.height)
            (((c + dz) % v.depth - dz) % v.depth)
        else EMPTY) = v.data a b c
  rw [if_pos (is_valid_bounds_iff.mpr
    ⟨Int.emod_nonneg _ (by omega), Int.emod_lt_of_pos _ hw,
     Int.emod_nonneg _ (by omega), Int.emod_lt_of_pos _ hh,
     Int.emod_nonneg _ (by omega), Int.emod_lt_of_pos _ hd⟩)]
  rw [emod_roundtrip hw h1 h2, emod_roundtrip hh h3 h4, emod_roundtrip hd h5 h6]

/-- C8: `translate(dx,dy,dz)` followed by `translate(-dx,-dy,-dz)` restores
the volume's voxel data exactly at every in-bounds coordinate (the
per-axis modulo wraparound is a bijection of the coordinate domain), and
`translate(0,0,0)` is a complete no-op: it returns the state unchanged,
touching neither the voxel data nor the undo history. -/
theorem c8_translate_roundtrip (v : VoxelData) (dx dy dz : Int) (u u' : Bool)
    (hw : 0 < v.width) (hh : 0 < v.height) (hd : 0 < v.depth) :
    (∀ v₁ v₂, v.translate dx dy dz u = .ok v₁ →
        v₁.translate (-dx) (-dy) (-dz) u' = .ok v₂ →
        ∀ a b c, v.is_valid_bounds a b c = true → v₂.data a b c = v.data a b c) ∧
    v.translate 0 0 0 u = .ok v := by
  constructor
  · intro v₁ v₂ ht1 ht2 a b c hab
    by_cases hz : dx = 0 ∧ dy = 0 ∧ dz = 0
    · obtain ⟨rfl, rfl, rfl⟩ := hz
      unfold VoxelData.translate at ht1 ht2
      rw [if_pos ⟨rfl, rfl, rfl⟩] at ht1
      obtain rfl : v = v₁ := by simpa using ht1
      rw [if_pos ⟨by ring, by ring, by ring⟩] at ht2
      obtain rfl : v = v₂ := by simpa using ht2
      rfl
    · have hz' : ¬(-dx = 0 ∧ -dy = 0 ∧ -dz = 0) := by
        intro ⟨e1, e2, e3⟩
        exact hz ⟨by omega, by omega, by omega⟩
      obtain ⟨u1, rfl⟩ := translate_ok_elim hz ht1
      obtain ⟨u2, rfl⟩ := translate_ok_elim hz' ht2
      exact translatePure_roundtrip_data v dx dy dz u1 u2 hw hh hd hab
  · unfold VoxelData.translate
    rw [if_pos ⟨rfl, rfl, rfl⟩]

/-- Witness for C8: shifting the 3×3×3 one-voxel volume by `(1,0,1)` and
back restores the voxel at `(1,1,1)`, and a zero translate is the
identity. -/
theorem c8_translate_roundtrip_witness :
    (0 : Int) < vox3.width ∧ vox3.translate 1 0 1 false = .ok vox3t ∧
      vox3t.translate (-1) 0 (-1) false = .ok vox3tt ∧
      vox3tt.data 1 1 1 = vox3.data 1 1 1 ∧
      vox3.translate 0 0 0 true = .ok vox3 := by
  have H := c8_translate_roundtrip vox3 1 0 1 false false
    (by decide) (by decide) (by decide)
  have H2 := c8_translate_roundtrip vox3 0 0 0 true true
    (by decide) (by decide) (by decide)
  exact ⟨by decide, rfl, rfl, H.1 vox3t vox3tt rfl rfl 1 1 1 (by decide), H2.2⟩

theorem list_set_of_getElem? {α : Type} {l : List α} {n : ℕ} {a : α}
    (h : l[n]? = some a) : l.set n a = l := by
  have hn : n < l.length := by
    obtain ⟨hlt, -⟩ := List.getElem?_eq_some_iff.mp h
    exact hlt
  apply List.ext_getElem?
  intro i
  by_cases hi : i = n
  · subst hi
    rw [List.getElem?_set_self hn]
    exact h.symm
  · exact List.getElem?_set_ne (fun e => hi e.symm)

/-- `Undo.undo` with the pointer at the end of a non-empty log pops the last
entry and decrements the pointer. -/
theorem undo_at_end {u : Undo} {fs : List (List UndoItem)} {log : List UndoItem}
    {e : UndoItem}
    (hbuf : u.buffer = .frames fs) (hlog : fs[u.frame]? = some log)
    (hlast : log.getLast? = some e)
    (hptr : u.ptr[u.frame]? = some ((log.length : Int) - 1)) :
    u.undo = .ok (some e,
      { u with ptr := u.ptr.set u.frame ((log.length : Int) - 1 - 1) }) := by
  obtain ⟨en, buf, ptr, fr⟩ := u
  dsimp only at hbuf hlog hptr ⊢
  subst hbuf
  have hne : log ≠ [] := by
    rintro rfl
    simp at hlast
  have hlen : ¬(log.length = 0) := fun h0 => hne (List.length_eq_zero.mp h0)
  unfold Undo.undo
  dsimp only
  rw [pyGet_coe_nat hlog]
  dsimp only
  rw [if_neg hlen, pyGet_coe_nat hptr]
  dsimp only
  have hidx : pyGet log ((log.length : Int) - 1) = .ok e := by
    unfold pyGet pyIndex
    rw [if_neg (by omega : ¬((log.length : Int) - 1 < 0)),
      if_pos (by omega : (0 : Int) ≤ (log.length : Int) - 1)]
    rw [show ((log.length : Int) - 1).toNat = log.length - 1 by omega]
    rw [← List.getLast?_eq_getElem?, hlast]
  rw [hidx]
  dsimp only
  rw [if_neg (by omega : ¬((log.length : Int) - 1 - 1 < -1))]

/-- `Undo.redo` stepping onto a valid entry. -/
theorem redo_step {u : Undo} {fs : List (List UndoItem)} {log : List UndoItem}
    {p : Int} {e : UndoItem}
    (hbuf : u.buffer = .frames fs) (hlog : fs[u.frame]? = some log)
    (hptr : u.ptr[u.frame]? = some p)
    (hp0 : 0 ≤ p + 1) (hlt : p + 1 ≤ (log.length : Int) - 1)
    (hitem : log[(p + 1).toNat]? = some e) :
    u.redo = .ok (some e, { u with ptr := u.ptr.set u.frame (p + 1) }) := by
  obtain ⟨en, buf, ptr, fr⟩ := u
  dsimp only at hbuf hlog hptr ⊢
  subst hbuf
  unfold Undo.redo
  dsimp only
  rw [pyGet_coe_nat hlog]
  dsimp only
  rw [if_neg (by omega : ¬(log.length = 0)), pyGet_coe_nat hptr]
  dsimp only
  rw [if_neg (by omega : ¬(p + 1 > (log.length : Int) - 1))]
  have hidx : pyGet log (p + 1) = .ok e := by
    unfold pyGet pyIndex
    rw [if_neg (by omega : ¬(p + 1 < 0)), if_pos (by omega : (0 : Int) ≤ p + 1)]
    rw [hitem]
  rw [hidx]

/-- `set` with undo recording suppressed never records and always succeeds
in bounds. -/
theorem set_noundo (v : VoxelData) (x y z c : Int)
    (hb : v.is_valid_bounds x y z = true) :
    v.set x y z c false = .ok (true, v.setPure x y z c v.undoBuf) := by
  unfold VoxelData.set
  rw [hb, if_neg (by decide : ¬(true = false))]
  rfl

/-- `VoxelData.undo` when the engine pops a `SET_VOXEL` entry: the old state
is re-applied through `set` with undo recording suppressed. -/
theorem vox_undo_set {v : VoxelData} {e : UndoItem} {u₁ : Undo}
    {x y z a : Int} {rest : List Int}
    (hu : v.undoBuf.undo = .ok (some e, u₁))
    (hop : e.operation = Undo.SET_VOXEL)
    (hold : e.olddata = x :: y :: z :: a :: rest)
    (hb : v.is_valid_bounds x y z = true) :
    v.undo = .ok (({ v with undoBuf := u₁ }).setPure x y z a u₁) := by
  unfold VoxelData.undo
  rw [hu]
  dsimp only
  rw [hop, if_pos rfl, hold]
  dsimp only
  rw [set_noundo { v with undoBuf := u₁ } x y z a hb]

/-- `VoxelData.redo` when the engine returns a `SET_VOXEL` entry: the new
state is re-applied through `set` with undo recording suppressed. -/
theorem vox_redo_set {v : VoxelData} {e : UndoItem} {u₁ : Undo}
    {x y z b : Int} {rest : List Int}
    (hu : v.undoBuf.redo = .ok (some e, u₁))
    (hop : e.operation = Undo.SET_VOXEL)
    (hnew : e.newdata = x :: y :: z :: b :: rest)
    (hb : v.is_valid_bounds x y z = true) :
    v.redo = .ok (({ v with undoBuf := u₁ }).setPure x y z b u₁) := by
  unfold VoxelData.redo
  rw [hu]
  dsimp only
  rw [hop, if_pos rfl, hnew]
  dsimp only
  rw [set_noundo { v with undoBuf := u₁ } x y z b hb]

/-- C4: in a state reached by in-bounds `set` calls — pointer at the end of
the current frame's log, last entry a `SET_VOXEL` item whose new state is
the currently stored one — `undo()` followed by `redo()` reproduces the
volume state exactly: the voxel data is unchanged pointwise, `get` agrees
everywhere, the occupied cache holds the same coordinates (and stays
duplicate-free via the invariant), the volume is still marked changed, and
the undo engine's log contents and pointer are both restored — undo/redo
re-apply the recorded old/new state with recording suppressed and never
append to the log. -/
theorem c4_undo_redo (v : VoxelData) (fs : List (List UndoItem)) (log : List UndoItem)
    (x y z a b : Int)
    (hinv : CacheInv v)
    (hbuf : v.undoBuf.buffer = .frames fs)
    (hlog : fs[v.undoBuf.frame]? = some log)
    (hptr : v.undoBuf.ptr[v.undoBuf.frame]? = some ((log.length : Int) - 1))
    (hlast : log.getLast? = some ⟨Undo.SET_VOXEL, [x, y, z, a], [x, y, z, b]⟩)
    (hb : v.is_valid_bounds x y z = true)
    (hdata : v.data x y z = b) :
    ∃ v₂, (v.undo.bind fun w => w.redo) = .ok v₂ ∧
      v₂.data = v.data ∧ (∀ p q r : Int, v₂.get p q r = v.get p q r) ∧
      v₂.undoBuf.buffer = v.undoBuf.buffer ∧
      v₂.undoBuf.ptr = v.undoBuf.ptr ∧
      v₂.changed = true ∧
      (∀ p : Int × Int × Int, (p ∈ v₂.cache ↔ p ∈ v.cache)) ∧
      CacheInv v₂ := by
  obtain ⟨hfrlt, -⟩ := List.getElem?_eq_some_iff.mp hptr
  have hnelog : log ≠ [] := by
    rintro rfl
    simp at hlast
  have hlenpos : 0 < log.length := List.length_pos.mpr hnelog
  have hu := undo_at_end hbuf hlog hlast hptr
  have hv1 := vox_undo_set hu rfl rfl hb
  -- names for the intermediate undo-engine state
  set P1 := v.undoBuf.ptr.set v.undoBuf.frame ((log.length : Int) - 1 - 1) with hP1
  set U1 : Undo := { v.undoBuf with ptr := P1 } with hU1
  have hbuf1 : U1.buffer = .frames fs := hbuf
  have hlog1 : fs[U1.frame]? = some log := hlog
  have hptr1 : U1.ptr[U1.frame]? = some ((log.length : Int) - 1 - 1) := by
    show P1[v.undoBuf.frame]? = _
    rw [hP1]
    exact List.getElem?_set_self hfrlt
  have hitem : log[(((log.length : Int) - 1 - 1) + 1).toNat]? =
      some ⟨Undo.SET_VOXEL, [x, y, z, a], [x, y, z, b]⟩ := by
    rw [show (((log.length : Int) - 1 - 1) + 1).toNat = log.length - 1 by omega]
    rw [← List.getLast?_eq_getElem?]
    exact hlast
  have hr := redo_step hbuf1 hlog1 hptr1 (by omega) (by omega) hitem
  have hv2 := vox_redo_set (e := ⟨Undo.SET_VOXEL, [x, y, z, a], [x, y, z, b]⟩)
    (v := ({ v with undoBuf := U1 } : VoxelData).setPure x y z a U1) hr rfl rfl hb
  refine ⟨(({ v with undoBuf := U1 } : VoxelData).setPure x y z a U1).setPure x y z b
    { U1 with ptr := U1.ptr.set U1.frame ((log.length : Int) - 1 - 1 + 1) },
    ?_, ?_, ?_, ?_, ?_, ?_, ?_, ?_⟩
  · rw [hv1]
    dsimp only [Except.bind]
    exact hv2
  · -- the voxel data is restored pointwise
    funext p q r
    show (if p = x ∧ q = y ∧ r = z then b
          else if p = x ∧ q = y ∧ r = z then a else v.data p q r) = v.data p q r
    by_cases hpq : p = x ∧ q = y ∧ r = z
    · rw [if_pos hpq]
      obtain ⟨rfl, rfl, rfl⟩ := hpq
      exact hdata.symm
    · rw [if_neg hpq, if_neg hpq]
  · -- get agrees everywhere
    intro p q r
    show (if v.is_valid_bounds p q r = false then EMPTY
          else if p = x ∧ q = y ∧ r = z then b
          else if p = x ∧ q = y ∧ r = z then a else v.data p q r) =
      v.get p q r
    unfold VoxelData.get
    by_cases hbnds : v.is_valid_bounds p q r = false
    · rw [if_pos hbnds, if_pos hbnds]
    · rw [if_neg hbnds, if_neg hbnds]
      by_cases hpq : p = x ∧ q = y ∧ r = z
      · rw [if_pos hpq]
        obtain ⟨rfl, rfl, rfl⟩ := hpq
        exact hdata.symm
      · rw [if_neg hpq, if_neg hpq]
  · -- the log contents are unchanged
    rfl
  · -- the pointer is restored
    show (v.undoBuf.ptr.set v.undoBuf.frame ((log.length : Int) - 1 - 1)).set
        v.undoBuf.frame (((log.length : Int) - 1 - 1) + 1) = v.undoBuf.ptr
    rw [List.set_set, show ((log.length : Int) - 1 - 1) + 1 = (log.length : Int) - 1
      by ring]
    exact list_set_of_getElem? hptr
  · -- the volume is still marked changed
    rfl
  · -- the occupied cache holds the same coordinates
    intro p
    have hinv1 : CacheInv (({ v with undoBuf := U1 } : VoxelData).setPure x y z a U1) :=
      (setPure_props hinv hb).1
    have hinv2 : CacheInv ((({ v with undoBuf := U1 } : VoxelData).setPure x y z a
        U1).setPure x y z b
        { U1 with ptr := U1.ptr.set U1.frame ((log.length : Int) - 1 - 1 + 1) }) :=
      (setPure_props hinv1 hb).1
    obtain ⟨p1, p2, p3⟩ := p
    rw [cacheInv_mem_iff hinv2, cacheInv_mem_iff hinv]
    constructor
    · rintro ⟨hbn, hd⟩
      refine ⟨hbn, ?_⟩
      revert hd
      show (if p1 = x ∧ p2 = y ∧ p3 = z then b
            else if p1 = x ∧ p2 = y ∧ p3 = z then a else v.data p1 p2 p3) ≠ EMPTY →
        v.data p1 p2 p3 ≠ EMPTY
      by_cases hpq : p1 = x ∧ p2 = y ∧ p3 = z
      · rw [if_pos hpq]
        obtain ⟨rfl, rfl, rfl⟩ := hpq
        rw [hdata]
        exact id
      · rw [if_neg hpq, if_neg hpq]
        exact id
    · rintro ⟨hbn, hd⟩
      refine ⟨hbn, ?_⟩
      revert hd
      show v.data p1 p2 p3 ≠ EMPTY →
        (if p1 = x ∧ p2 = y ∧ p3 = z then b
         else if p1 = x ∧ p2 = y ∧ p3 = z then a else v.data p1 p2 p3) ≠ EMPTY
      by_cases hpq : p1 = x ∧ p2 = y ∧ p3 = z
      · rw [if_pos hpq]
        obtain ⟨rfl, rfl, rfl⟩ := hpq
        rw [hdata]
        exact id
      · rw [if_neg hpq, if_neg hpq]
        exact id
  · -- the invariant still holds afterwards
    have hinv1 : CacheInv (({ v with undoBuf := U1 } : VoxelData).setPure x y z a U1) :=
      (setPure_props hinv hb).1
    exact (setPure_props hinv1 hb).1

/-- Witness for C4: in the 2×2×2 volume after `set(0,0,0,7)` and
`set(1,0,0,9)`, an `undo()`/`redo()` pair reproduces the voxel data and
restores the undo log and pointer. -/
theorem c4_undo_redo_witness :
    CacheInv vox2b ∧ vox2b.data 1 0 0 = 9 ∧
      ∃ v₂, (vox2b.undo.bind fun w => w.redo) = .ok v₂ ∧
        v₂.data = vox2b.data ∧
        v₂.undoBuf.buffer = vox2b.undoBuf.buffer ∧
        v₂.undoBuf.ptr = vox2b.undoBuf.ptr := by
  have hinv : CacheInv vox2b := by decide
  obtain ⟨v₂, h1, h2, h3, h4, h5, h6, h7, h8⟩ :=
    c4_undo_redo vox2b
      [[⟨Undo.SET_VOXEL, [0, 0, 0, 0], [0, 0, 0, 7]⟩,
        ⟨Undo.SET_VOXEL, [1, 0, 0, 0], [1, 0, 0, 9]⟩]]
      [⟨Undo.SET_VOXEL, [0, 0, 0, 0], [0, 0, 0, 7]⟩,
       ⟨Undo.SET_VOXEL, [1, 0, 0, 0], [1, 0, 0, 9]⟩]
      1 0 0 0 9 hinv rfl rfl rfl rfl (by decide) rfl
  exact ⟨hinv, rfl, v₂, h1, h2, h4, h5⟩

/-- One face block of 6 vertices (18 floats) is emitted per EMPTY
axis-aligned neighbour. -/
theorem gvv_verts_length (v : VoxelData) (x y z : Int) :
    (v.get_voxel_vertices x y z).1.length =
      (if v.get x y (z-1) = EMPTY then 18 else 0) +
      (if v.get x (y+1) z = EMPTY then 18 else 0) +
      (if v.get (x+1) y z = EMPTY then 18 else 0) +
      (if v.get (x-1) y z = EMPTY then 18 else 0) +
      (if v.get x y (z+1) = EMPTY then 18 else 0) +
      (if v.get x (y-1) z = EMPTY then 18 else 0) := by
  unfold VoxelData.get_voxel_vertices
  dsimp only
  simp only [List.length_append, apply_ite List.length, List.length_cons,
    List.length_nil, decide_eq_true_eq]

/-- One quad of UV pairs (12 values) is emitted per EMPTY axis-aligned
neighbour. -/
theorem gvv_uvs_length (v : VoxelData) (x y z : Int) :
    (v.get_voxel_vertices x y z).2.2.2.length =
      (if v.get x y (z-1) = EMPTY then 12 else 0) +
      (if v.get x (y+1) z = EMPTY then 12 else 0) +
      (if v.get (x+1) y z = EMPTY then 12 else 0) +
      (if v.get (x-1) y z = EMPTY then 12 else 0) +
      (if v.get x y (z+1) = EMPTY then 12 else 0) +
      (if v.get x (y-1) z = EMPTY then 12 else 0) := by
  unfold VoxelData.get_voxel_vertices
  dsimp only
  simp only [List.length_append, apply_ite List.length, List.length_cons,
    List.length_nil, decide_eq_true_eq]

/-- C6: mesh generation emits one quad (two triangles, 6 vertices of 3
coordinates each, i.e. 18 floats) per occupied voxel per EMPTY
axis-aligned neighbour and never a face between two solid voxels: the
per-voxel vertex count is `18 ×` the number of EMPTY neighbours; a volume
with no occupied voxels yields no geometry at all; one isolated occupied
voxel yields exactly `6` faces (`36` vertex positions / `108` floats, `12`
triangles); two voxels adjacent along x yield exactly `10` faces because
the two shared internal faces are culled. -/
theorem c6_face_culling :
    (∀ (v : VoxelData) (x y z : Int),
      (v.get_voxel_vertices x y z).1.length =
        (if v.get x y (z-1) = EMPTY then 18 else 0) +
        (if v.get x (y+1) z = EMPTY then 18 else 0) +
        (if v.get (x+1) y z = EMPTY then 18 else 0) +
        (if v.get (x-1) y z = EMPTY then 18 else 0) +
        (if v.get x y (z+1) = EMPTY then 18 else 0) +
        (if v.get x (y-1) z = EMPTY then 18 else 0)) ∧
    (∀ v : VoxelData, CacheInv v → (∀ p q r : Int, v.get p q r = EMPTY) →
      v.get_vertices = ([], [], [], [])) ∧
    (∀ (v : VoxelData) (x y z : Int), v.cache = [(x, y, z)] →
      v.get x y z ≠ EMPTY →
      v.get x y (z-1) = EMPTY → v.get x (y+1) z = EMPTY →
      v.get (x+1) y z = EMPTY → v.get (x-1) y z = EMPTY →
      v.get x y (z+1) = EMPTY → v.get x (y-1) z = EMPTY →
      (v.get_vertices).1.length = 6 * 18 ∧ (v.get_vertices).2.2.2.length = 6 * 12) ∧
    (∀ (v : VoxelData) (x y z : Int), v.cache = [(x, y, z), (x+1, y, z)] →
      v.get x y z ≠ EMPTY → v.get (x+1) y z ≠ EMPTY →
      v.get x y (z-1) = EMPTY → v.get x (y+1) z = EMPTY →
      v.get (x-1) y z = EMPTY → v.get x y (z+1) = EMPTY →
      v.get x (y-1) z = EMPTY →
      v.get (x+1) y (z-1) = EMPTY → v.get (x+1) (y+1) z = EMPTY →
      v.get (x+2) y z = EMPTY → v.get (x+1) y (z+1) = EMPTY →
      v.get (x+1) (y-1) z = EMPTY →
      (v.get_vertices).1.length = 10 * 18) := by
  refine ⟨gvv_verts_length, ?_, ?_, ?_⟩
  · -- an empty volume yields no geometry
    intro v hinv hempty
    have hc : v.cache = [] := by
      rw [List.eq_nil_iff_forall_not_mem]
      intro p hp
      obtain ⟨hbn, hd⟩ := hinv.2.1 p hp
      exact hd (by rw [← get_of_bounds hbn]; exact hempty _ _ _)
    unfold VoxelData.get_vertices
    rw [hc]
    rfl
  · -- one isolated voxel: 6 faces
    intro v x y z hc hocc hf ht hr hl hbk hbo
    have hlen1 : (v.get_vertices).1 =
        (v.get_voxel_vertices x y z).1 := by
      unfold VoxelData.get_vertices
      rw [hc]
      simp
    have hlen2 : (v.get_vertices).2.2.2 =
        (v.get_voxel_vertices x y z).2.2.2 := by
      unfold VoxelData.get_vertices
      rw [hc]
      simp
    constructor
    · rw [hlen1, gvv_verts_length, hf, ht, hr, hl, hbk, hbo]
      norm_num
    · rw [hlen2, gvv_uvs_length, hf, ht, hr, hl, hbk, hbo]
      norm_num
  · -- two voxels adjacent along x: 10 faces, the shared faces are culled
    intro v x y z hc hocc1 hocc2 hf1 ht1 hl1 hbk1 hbo1 hf2 ht2 hr2 hbk2 hbo2
    have hsplit : (v.get_vertices).1 =
        (v.get_voxel_vertices x y z).1 ++ (v.get_voxel_vertices (x+1) y z).1 := by
      unfold VoxelData.get_vertices
      rw [hc]
      simp
    rw [hsplit, List.length_append, gvv_verts_length, gvv_verts_length]
    rw [show x + 1 + 1 = x + 2 from by ring, show x + 1 - 1 = x from by ring]
    rw [hf1, ht1, hl1, hbk1, hbo1, hf2, ht2, hr2, hbk2, hbo2]
    rw [if_neg hocc2, if_neg hocc1]
    norm_num

/-- Witness for C6: the empty 2×2×2 volume yields no geometry; the one-voxel
3×3×3 volume yields 6 faces (108 floats, 72 UV values); the two-adjacent-
voxel 4×3×3 volume yields 10 faces. -/
theorem c6_face_culling_witness :
    vox2.get_vertices = ([], [], [], []) ∧
    (vox3.get_vertices).1.length = 6 * 18 ∧
    (vox3.get_vertices).2.2.2.length = 6 * 12 ∧
    (vox4.get_vertices).1.length = 10 * 18 := by
  obtain ⟨hgen, hempty, hone, htwo⟩ := c6_face_culling
  refine ⟨hempty vox2 (by decide) ?_, ?_, ?_, ?_⟩
  · intro p q r
    unfold VoxelData.get
    split <;> rfl
  · exact (hone vox3 1 1 1 rfl (by decide) (by decide) (by decide) (by decide)
      (by decide) (by decide) (by decide)).1
  · exact (hone vox3 1 1 1 rfl (by decide) (by decide) (by decide) (by decide)
      (by decide) (by decide) (by decide)).2
  · exact htwo vox4 1 1 1 rfl (by decide) (by decide) (by decide) (by decide)
      (by decide) (by decide) (by decide) (by decide) (by decide) (by decide)
      (by decide) (by decide)

theorem lor_shift_add {b : ℕ} (a i : ℕ) (hb : b < 2 ^ i) :
    a <<< i ||| b = a * 2 ^ i + b := by
  rw [Nat.shiftLeft_eq, Nat.mul_comm a (2 ^ i), ← Nat.mul_add_lt_is_or hb a,
    Nat.mul_comm]

theorem byte_shift_mask (n k : ℕ) :
    (n &&& ((2 ^ 8 - 1) <<< k)) >>> k = (n >>> k) % 2 ^ 8 := by
  apply Nat.eq_of_testBit_eq
  intro j
  rw [Nat.testBit_shiftRight, Nat.testBit_and, Nat.testBit_shiftLeft,
    Nat.testBit_two_pow_sub_one, Nat.testBit_mod_two_pow, Nat.testBit_shiftRight]
  have h1 : k + j - k = j := by omega
  have h2 : decide (k + j ≥ k) = true := by simp
  rw [h1, h2]
  cases Nat.testBit n (k + j) <;> cases hj : decide (j < 8) <;> simp [hj]

/-- The shifted-or pick id as plain arithmetic: the three 7-bit fields and
the 3-bit face index are disjoint. -/
theorem pick_arith (A B C f : ℕ) (_hA : A < 128) (hB : B < 128) (hC : C < 128)
    (hf : f < 8) :
    A <<< 17 ||| B <<< 10 ||| C <<< 3 ||| f
      = A * 131072 + B * 1024 + C * 8 + f := by
  have p10 : (2 : ℕ) ^ 10 = 1024 := by norm_num
  have p17 : (2 : ℕ) ^ 17 = 131072 := by norm_num
  have p3 : (2 : ℕ) ^ 3 = 8 := by norm_num
  have e3 : C <<< 3 ||| f = C * 8 + f := by
    have h := lor_shift_add C 3 (by simpa [p3] using hf)
    rwa [p3] at h
  have e10 : B <<< 10 ||| (C * 8 + f) = B * 1024 + (C * 8 + f) := by
    have h := lor_shift_add B 10 (show C * 8 + f < 2 ^ 10 by omega)
    rwa [p10] at h
  have e17 : A <<< 17 ||| (B * 1024 + (C * 8 + f))
      = A * 131072 + (B * 1024 + (C * 8 + f)) := by
    have h := lor_shift_add A 17 (show B * 1024 + (C * 8 + f) < 2 ^ 17 by omega)
    rwa [p17] at h
  rw [Nat.or_assoc, Nat.or_assoc, e3, e10, e17]
  ring

/-- The pick-ID bytes computed by the code from the face-less `voxel_id`
coincide with the byte split of the claim's full id `voxel_id | faceIndex`:
the face index only occupies the low 3 bits. -/
theorem pick_bytes (A B C f : ℕ) (hA : A < 128) (hB : B < 128) (hC : C < 128)
    (hf : f < 8) :
    ((A <<< 17 ||| B <<< 10 ||| C <<< 3) &&& 0xff0000) >>> 16
        = (A <<< 17 ||| B <<< 10 ||| C <<< 3 ||| f) >>> 16 &&& 0xff ∧
    ((A <<< 17 ||| B <<< 10 ||| C <<< 3) &&& 0xff00) >>> 8
        = (A <<< 17 ||| B <<< 10 ||| C <<< 3 ||| f) >>> 8 &&& 0xff ∧
    ((A <<< 17 ||| B <<< 10 ||| C <<< 3) &&& 0xff) ||| f
        = (A <<< 17 ||| B <<< 10 ||| C <<< 3 ||| f) &&& 0xff := by
  have hvf := pick_arith A B C f hA hB hC hf
  have hv0 : A <<< 17 ||| B <<< 10 ||| C <<< 3 = A * 131072 + B * 1024 + C * 8 := by
    have h := pick_arith A B C 0 hA hB hC (by omega)
    simpa using h
  have p16 : (2 : ℕ) ^ 16 = 65536 := by norm_num
  have p8 : (2 : ℕ) ^ 8 = 256 := by norm_num
  have p3 : (2 : ℕ) ^ 3 = 8 := by norm_num
  refine ⟨?_, ?_, ?_⟩
  · rw [show (0xff0000 : ℕ) = (2 ^ 8 - 1) <<< 16 by decide, byte_shift_mask,
      show (0xff : ℕ) = 2 ^ 8 - 1 by decide, Nat.and_pow_two_sub_one_eq_mod,
      Nat.shiftRight_eq_div_pow, Nat.shiftRight_eq_div_pow, hvf, hv0, p16, p8]
    omega
  · rw [show (0xff00 : ℕ) = (2 ^ 8 - 1) <<< 8 by decide, byte_shift_mask,
      show (0xff : ℕ) = 2 ^ 8 - 1 by decide, Nat.and_pow_two_sub_one_eq_mod,
      Nat.shiftRight_eq_div_pow, Nat.shiftRight_eq_div_pow, hvf, hv0, p8]
    omega
  · rw [show (0xff : ℕ) = 2 ^ 8 - 1 by decide, Nat.and_pow_two_sub_one_eq_mod,
      Nat.and_pow_two_sub_one_eq_mod, hvf, hv0, p8]
    have hmod : (A * 131072 + B * 1024 + C * 8) % 256 = C % 32 * 8 := by omega
    rw [hmod, show C % 32 * 8 = (C % 32) <<< 3 by rw [Nat.shiftLeft_eq, p3],
      lor_shift_add (C % 32) 3 (by simpa [p3] using hf), p3]
    omega

/-- For a non-negative Python int, `x & 0x7f` is a natural below 128. -/
theorem land127_lt {x : Int} (hx : 0 ≤ x) : (Int.land x 0x7f).toNat < 128 := by
  obtain ⟨m, rfl⟩ := Int.eq_ofNat_of_zero_le hx
  show m &&& 127 < 128
  have h := Nat.and_le_right (n := m) (m := 127)
  omega

theorem flatMap_if_singleton {α β : Type} (g : α → List β) (c : Prop) [Decidable c]
    (a : α) : (if c then [a] else []).flatMap g = if c then g a else [] := by
  split <;> simp

/-- C7: for every emitted face of the voxel at non-negative `(x,y,z)`, the
pick-ID colour bytes carried (identically) by all six vertices of the face
equal the three bytes `R = bits 23..16`, `G = bits 15..8`, `B = bits 7..0`
of `id = (x & 0x7f)<<17 | (y & 0x7f)<<10 | (z & 0x7f)<<3 | faceIndex`,
with face indices `0 = front(-z)`, `1 = top(+y)`, `2 = left(-x)`,
`3 = right(+x)`, `4 = back(+z)`, `5 = bottom(-y)` (the faces appear in the
code's emission order front, top, right, left, back, bottom). -/
theorem c7_pick_id (v : VoxelData) (x y z : Int)
    (hx : 0 ≤ x) (hy : 0 ≤ y) (hz : 0 ≤ z) :
    (v.get_voxel_vertices x y z).2.2.1 =
      ((if v.get x y (z-1) = EMPTY then [0] else []) ++
       (if v.get x (y+1) z = EMPTY then [1] else []) ++
       (if v.get (x+1) y z = EMPTY then [3] else []) ++
       (if v.get (x-1) y z = EMPTY then [2] else []) ++
       (if v.get x y (z+1) = EMPTY then [4] else []) ++
       (if v.get x (y-1) z = EMPTY then [5] else [])).flatMap
        (fun f => (List.replicate 6
          [VoxelData.pickId x y z f >>> 16 &&& 0xff,
           VoxelData.pickId x y z f >>> 8 &&& 0xff,
           VoxelData.pickId x y z f &&& 0xff]).flatten) := by
  have hA := land127_lt hx
  have hB := land127_lt hy
  have hC := land127_lt hz
  have hb0 := pick_bytes _ _ _ 0 hA hB hC (by omega)
  have hb1 := pick_bytes _ _ _ 1 hA hB hC (by omega)
  have hb2 := pick_bytes _ _ _ 2 hA hB hC (by omega)
  have hb3 := pick_bytes _ _ _ 3 hA hB hC (by omega)
  have hb4 := pick_bytes _ _ _ 4 hA hB hC (by omega)
  have hb5 := pick_bytes _ _ _ 5 hA hB hC (by omega)
  have e0 : ([(VoxelData.voxelId x y z &&& 0xff0000) >>> 16,
      (VoxelData.voxelId x y z &&& 0xff00) >>> 8,
      VoxelData.voxelId x y z &&& 0xff] : List ℕ) =
      [VoxelData.pickId x y z 0 >>> 16 &&& 0xff,
       VoxelData.pickId x y z 0 >>> 8 &&& 0xff,
       VoxelData.pickId x y z 0 &&& 0xff] := by
    unfold VoxelData.voxelId VoxelData.pickId
    rw [hb0.1, hb0.2.1]
    congr 2
    conv_lhs => rw [← Nat.or_zero ((((Int.land x 0x7f).toNat <<< 17 |||
      (Int.land y 0x7f).toNat <<< 10 ||| (Int.land z 0x7f).toNat <<< 3)) &&& 0xff)]
    rw [hb0.2.2]
  have e1 : ([(VoxelData.voxelId x y z &&& 0xff0000) >>> 16,
      (VoxelData.voxelId x y z &&& 0xff00) >>> 8,
      VoxelData.voxelId x y z &&& 0xff ||| 1] : List ℕ) =
      [VoxelData.pickId x y z 1 >>> 16 &&& 0xff,
       VoxelData.pickId x y z 1 >>> 8 &&& 0xff,
       VoxelData.pickId x y z 1 &&& 0xff] := by
    unfold VoxelData.voxelId VoxelData.pickId
    rw [hb1.1, hb1.2.1, hb1.2.2]
  have e2 : ([(VoxelData.voxelId x y z &&& 0xff0000) >>> 16,
      (VoxelData.voxelId x y z &&& 0xff00) >>> 8,
      VoxelData.voxelId x y z &&& 0xff ||| 2] : List ℕ) =
      [VoxelData.pickId x y z 2 >>> 16 &&& 0xff,
       VoxelData.pickId x y z 2 >>> 8 &&& 0xff,
       VoxelData.pickId x y z 2 &&& 0xff] := by
    unfold VoxelData.voxelId VoxelData.pickId
    rw [hb2.1, hb2.2.1, hb2.2.2]
  have e3 : ([(VoxelData.voxelId x y z &&& 0xff0000) >>> 16,
      (VoxelData.voxelId x y z &&& 0xff00) >>> 8,
      VoxelData.voxelId x y z &&& 0xff ||| 3] : List ℕ) =
      [VoxelData.pickId x y z 3 >>> 16 &&& 0xff,
       VoxelData.pickId x y z 3 >>> 8 &&& 0xff,
       VoxelData.pickId x y z 3 &&& 0xff] := by
    unfold VoxelData.voxelId VoxelData.pickId
    rw [hb3.1, hb3.2.1, hb3.2.2]
  have e4 : ([(VoxelData.voxelId x y z &&& 0xff0000) >>> 16,
      (VoxelData.voxelId x y z &&& 0xff00) >>> 8,
      VoxelData.voxelId x y z &&& 0xff ||| 4] : List ℕ) =
      [VoxelData.pickId x y z 4 >>> 16 &&& 0xff,
       VoxelData.pickId x y z 4 >>> 8 &&& 0xff,
       VoxelData.pickId x y z 4 &&& 0xff] := by
    unfold VoxelData.voxelId VoxelData.pickId
    rw [hb4.1, hb4.2.1, hb4.2.2]
  have e5 : ([(VoxelData.voxelId x y z &&& 0xff0000) >>> 16,
      (VoxelData.voxelId x y z &&& 0xff00) >>> 8,
      VoxelData.voxelId x y z &&& 0xff ||| 5] : List ℕ) =
      [VoxelData.pickId x y z 5 >>> 16 &&& 0xff,
       VoxelData.pickId x y z 5 >>> 8 &&& 0xff,
       VoxelData.pickId x y z 5 &&& 0xff] := by
    unfold VoxelData.voxelId VoxelData.pickId
    rw [hb5.1, hb5.2.1, hb5.2.2]
  unfold VoxelData.get_voxel_vertices
  dsimp only
  rw [e0, e1, e2, e3, e4, e5]
  simp only [List.flatMap_append, flatMap_if_singleton, decide_eq_true_eq]

/-- Witness for C7 at the one-voxel 3×3×3 volume and voxel `(1,1,1)`. -/
theorem c7_pick_id_witness :
    (vox3.get_voxel_vertices 1 1 1).2.2.1 =
      ((if vox3.get 1 1 (1-1) = EMPTY then [0] else []) ++
       (if vox3.get 1 (1+1) 1 = EMPTY then [1] else []) ++
       (if vox3.get (1+1) 1 1 = EMPTY then [3] else []) ++
       (if vox3.get (1-1) 1 1 = EMPTY then [2] else []) ++
       (if vox3.get 1 1 (1+1) = EMPTY then [4] else []) ++
       (if vox3.get 1 (1-1) 1 = EMPTY then [5] else [])).flatMap
        (fun f => (List.replicate 6
          [VoxelData.pickId 1 1 1 f >>> 16 &&& 0xff,
           VoxelData.pickId 1 1 1 f >>> 8 &&& 0xff,
           VoxelData.pickId 1 1 1 f &&& 0xff]).flatten) :=
  c7_pick_id vox3 1 1 1 (by decide) (by decide) (by decide)

/-- C9: the coordinate maps are mutually inverse: composing
`world_to_voxel` with `voxel_to_world` recovers the input exactly on all
three axes (the half-unit offsets and the `dim // 2` shifts cancel, and
the z axis is inverted twice). -/
theorem c9_world_voxel_roundtrip (v : VoxelData) (p : ℚ × ℚ × ℚ) :
    (let q := v.world_to_voxel p.1 p.2.1 p.2.2
     v.voxel_to_world q.1 q.2.1 q.2.2) = p := by
  obtain ⟨px, py, pz⟩ := p
  unfold VoxelData.world_to_voxel VoxelData.voxel_to_world
  dsimp only
  simp only [Prod.mk.injEq]
  refine ⟨by ring, by ring, by ring⟩

end Zoxel
